import Mathlib

/-!
# lector: instance directory, role labels and job controller

A shallow embedding of `discovery.go`, `elector.go` and `controller.go`.

The cluster client is an explicit deterministic state machine (`Cluster σ`): every
client call takes the cluster state, answers, and yields the next state.  Every
operation returns a `Run`: the final cluster state, the ordered log of client calls
it issued (each with the answer it got) and the Go return value.  Run-time panics
(assignment into a nil map, nil pointer dereference) are explicit `crashed` results.
-/

namespace Lector

/-! ## Data model -/

/-- A Go `map[string]string`, kept as its entries. -/
abbrev StrMap := List (String × String)

/-- Map read `m[k]` (with presence). -/
def mapGet : StrMap → String → Option String
  | [], _ => none
  | (k', v') :: m, k => if k' = k then some v' else mapGet m k

/-- Map write `m[k] = v`: overwrite the entry of `k` when there is one, add it otherwise. -/
def mapSet : StrMap → String → String → StrMap
  | [], k, v => [(k, v)]
  | (k', v') :: m, k, v => if k' = k then (k, v) :: m else (k', v') :: mapSet m k v

/-- An environment entry of a container (`apiv1.EnvVar`). -/
structure EnvVar where
  name : String
  value : String
  deriving DecidableEq, Repr

/-- The fields of `apiv1.Container` the code touches. -/
structure Container where
  name : String
  image : String
  args : List String
  env : List EnvVar
  deriving DecidableEq, Repr

/-- The fields of `v1.Pod` the code touches.  `labels = none` is the nil map. -/
structure Pod where
  name : String
  labels : Option StrMap
  containers : List Container
  deriving DecidableEq, Repr

/-- Instants and durations, in nanoseconds.  Instants read from the cluster lie in the years
0 to 9999 and a duration is a 64-bit count of nanoseconds, so `t.Add(d)` is the exact sum. -/
abbrev Time := Int

/-- A `batchv1.JobCondition`: only its `LastTransitionTime` is read. -/
structure JobCondition where
  lastTransitionTime : Time
  deriving DecidableEq, Repr

/-- The fields of `batchv1.JobStatus` the code reads.  `completionTime` is a pointer in Go:
`none` is nil. -/
structure JobStatus where
  succeeded : Int
  failed : Int
  completionTime : Option Time
  conditions : List JobCondition
  deriving DecidableEq, Repr

/-- The pod template of a job (`apiv1.PodTemplateSpec`). -/
structure PodTemplate where
  generateName : String
  labels : Option StrMap
  containers : List Container
  restartPolicy : String
  deriving DecidableEq, Repr

/-- The fields of `batchv1.JobSpec` the code sets.  `backoffLimit` is a pointer in Go. -/
structure JobSpec where
  template : PodTemplate
  backoffLimit : Option Int
  deriving DecidableEq, Repr

/-- The fields of `batchv1.Job` the code touches. -/
structure Job where
  name : String
  generateName : String
  ns : String
  labels : Option StrMap
  spec : JobSpec
  status : JobStatus
  deriving DecidableEq, Repr

/-- An error value handed back by the cluster client: a `*k8err.StatusError` carrying
its reason and message, or any other error. -/
inductive ApiError where
  | status (reason : String) (message : String)
  | other (text : String)
  deriving DecidableEq, Repr

/-- The library test `k8err.IsNotFound`. -/
def IsNotFound : ApiError → Bool
  | .status reason _ => reason = "NotFound"
  | .other _ => false

/-- The library test `k8err.IsConflict`. -/
def IsConflict : ApiError → Bool
  | .status reason _ => reason = "Conflict"
  | .other _ => false

/-- Go error values built by the code: a client error passed on, `errors.New`, `errors.Wrap`. -/
inductive GoErr where
  | api (e : ApiError)
  | new (msg : String)
  | wrap (cause : GoErr) (msg : String)
  deriving DecidableEq, Repr

/-- Answer of a client call that yields an object. -/
inductive Resp (α : Type) where
  | ok (a : α)
  | fail (e : ApiError)
  deriving DecidableEq, Repr

/-- One side effect of an operation, with the answer it received. -/
inductive Event where
  | sleep
  | getPod (name : String) (resp : Resp Pod)
  | updatePod (obj : Pod) (resp : Option ApiError)
  | listPods (selector : StrMap) (resp : Resp (List Pod))
  | listJobs (selector : StrMap) (resp : Resp (List Job))
  | createJob (obj : Job) (resp : Resp Job)
  | deleteJob (name : String) (resp : Option ApiError)
  deriving DecidableEq, Repr

/-- The cluster client, namespace-scoped, as a deterministic state machine. -/
structure Cluster (σ : Type) where
  getPod : σ → String → σ × Resp Pod
  updatePod : σ → Pod → σ × Option ApiError
  listPods : σ → StrMap → σ × Resp (List Pod)
  listJobs : σ → StrMap → σ × Resp (List Job)
  createJob : σ → Job → σ × Resp Job
  deleteJob : σ → String → σ × Option ApiError

/-- The `service` struct of `lector.go`: namespace and current-instance identity. -/
structure Service where
  ns : String
  podName : String
  deriving DecidableEq, Repr

/-- A finished execution: final cluster state, calls issued in order, returned value. -/
structure Run (σ α : Type) where
  state : σ
  log : List Event
  out : α

/-- A Go `(*T, error)` return pair. -/
structure Ret (α : Type) where
  val : Option α
  err : Option GoErr
  deriving DecidableEq, Repr

/-- Result of an operation returning only `error`, or a run-time panic. -/
inductive Status where
  | returned (err : Option GoErr)
  | crashed (why : String)
  deriving DecidableEq, Repr

/-- Result of an operation returning `(*T, error)`, or a run-time panic. -/
inductive Outcome (α : Type) where
  | returned (val : Option α) (err : Option GoErr)
  | crashed (why : String)
  deriving DecidableEq, Repr

/-! ## elector.go: label vocabulary -/

/-- Source `ElectorService.GetMasterLabels`. -/
def GetMasterLabels : String × String := ("role", "master")

/-- Source `ElectorService.GetSlaveLabels`. -/
def GetSlaveLabels : String × String := ("role", "slave")

/-- Source `ElectorService.GetAppLabel`. -/
def GetAppLabel : String := "app"

/-! ## discovery.go -/

variable {σ : Type}

/-- Source `DiscoveryService.GetMasterInstance`. -/
def GetMasterInstance (c : Cluster σ) (s : σ) (name : String) : Run σ (Ret Pod) :=
  let key := GetMasterLabels.1
  let val := GetMasterLabels.2
  let selector : StrMap := mapSet (mapSet [] key val) GetAppLabel name
  let r := c.listPods s selector
  match r.2 with
  | .fail e =>
    if IsNotFound e then ⟨r.1, [.listPods selector r.2], ⟨none, none⟩⟩
    else ⟨r.1, [.listPods selector r.2], ⟨none, some (.new "error fetching instances")⟩⟩
  | .ok items =>
    if items.length < 1 then ⟨r.1, [.listPods selector r.2], ⟨none, none⟩⟩
    else if items.length > 1 then
      ⟨r.1, [.listPods selector r.2], ⟨none, some (.new "error instance count mismatch")⟩⟩
    else ⟨r.1, [.listPods selector r.2], ⟨items.head?, none⟩⟩

/-- The error mapping shared by `GetInstanceInfo` and `GetCurrentInstance`. -/
def getResult (r : Resp Pod) : Ret Pod :=
  match r with
  | .fail e =>
    if IsNotFound e then ⟨none, some (.new "instance not found")⟩
    else match e with
      | .status _ message => ⟨none, some (.new ("error getting instance " ++ message ++ "\n"))⟩
      | .other _ => ⟨none, some (.api e)⟩
  | .ok pod => ⟨some pod, none⟩

/-- Source `DiscoveryService.GetInstanceInfo`. -/
def GetInstanceInfo (c : Cluster σ) (s : σ) (podName : String) : Run σ (Ret Pod) :=
  let r := c.getPod s podName
  ⟨r.1, [.getPod podName r.2], getResult r.2⟩

/-- Source `DiscoveryService.GetCurrentInstance`. -/
def GetCurrentInstance (svc : Service) (c : Cluster σ) (s : σ) : Run σ (Ret Pod) :=
  if svc.podName = "" then ⟨s, [], ⟨none, none⟩⟩
  else
    let r := c.getPod s svc.podName
    ⟨r.1, [.getPod svc.podName r.2], getResult r.2⟩

/-- The three buckets `GetJobs` fills, and its error. -/
structure JobBuckets where
  finished : Option (List Job)
  failed : Option (List Job)
  pending : Option (List Job)
  err : Option GoErr
  deriving DecidableEq, Repr

/-- One iteration of the classification loop of `GetJobs` over (finished, failed, pending). -/
def classify (acc : List Job × List Job × List Job) (job : Job) :
    List Job × List Job × List Job :=
  if job.status.succeeded > 0 then (acc.1 ++ [job], acc.2.1, acc.2.2)
  else if job.status.failed > 0 then (acc.1, acc.2.1 ++ [job], acc.2.2)
  else (acc.1, acc.2.1, acc.2.2 ++ [job])

/-- Source `DiscoveryService.GetJobs`. -/
def GetJobs (c : Cluster σ) (s : σ) (name : String) : Run σ JobBuckets :=
  let labelSelector : StrMap := mapSet [] GetAppLabel name
  let r := c.listJobs s labelSelector
  match r.2 with
  | .fail e =>
    ⟨r.1, [.listJobs labelSelector r.2], ⟨none, none, none, some (.wrap (.api e) "err get jobs")⟩⟩
  | .ok items =>
    let b := items.foldl classify ([], [], [])
    ⟨r.1, [.listJobs labelSelector r.2], ⟨some b.1, some b.2.1, some b.2.2, none⟩⟩

/-! ## elector.go: role-label writes -/

/-- The retry loop `for i := 0; i < 5; i++` of `SetMasterLabel` and `SetSlaveLabel`.
The first argument is the number of iterations still to run, `name` is `pod.Name` of the
pod variable, `err` the error variable as the iteration starts. -/
def retryLoop (c : Cluster σ) (key val msgRetry msgFailed : String) :
    Nat → σ → String → GoErr → Run σ Status
  | 0, s, _, err => ⟨s, [], .returned (some (.wrap err msgFailed))⟩
  | n + 1, s, name, _ =>
    let g := GetInstanceInfo c s name
    match g.out.err, g.out.val with
    | some e, _ => ⟨g.state, .sleep :: g.log, .returned (some (.wrap e "err get pod retry"))⟩
    | none, none => ⟨g.state, .sleep :: g.log, .crashed "nil pointer dereference"⟩
    | none, some pod =>
      match pod.labels with
      | none => ⟨g.state, .sleep :: g.log, .crashed "assignment to entry in nil map"⟩
      | some m =>
        let pod1 : Pod := { pod with labels := some (mapSet m key val) }
        let u := c.updatePod g.state pod1
        match u.2 with
        | none => ⟨u.1, .sleep :: (g.log ++ [.updatePod pod1 none]), .returned none⟩
        | some e =>
          if IsConflict e then
            let r := retryLoop c key val msgRetry msgFailed n u.1 pod1.name (.api e)
            ⟨r.state, .sleep :: (g.log ++ .updatePod pod1 (some e) :: r.log), r.out⟩
          else
            ⟨u.1, .sleep :: (g.log ++ [.updatePod pod1 (some e)]),
              .returned (some (.wrap (.api e) msgRetry))⟩

/-- The body shared, up to the label pair and the three messages, by `SetMasterLabel` and
`SetSlaveLabel`. -/
def setLabel (c : Cluster σ) (s : σ) (kv : String × String)
    (msgFirst msgRetry msgFailed : String) (pod : Pod) : Run σ Status :=
  match pod.labels with
  | none => ⟨s, [], .crashed "assignment to entry in nil map"⟩
  | some m =>
    let pod1 : Pod := { pod with labels := some (mapSet m kv.1 kv.2) }
    let u := c.updatePod s pod1
    match u.2 with
    | none => ⟨u.1, [.updatePod pod1 none], .returned none⟩
    | some e =>
      if IsConflict e then
        let r := retryLoop c kv.1 kv.2 msgRetry msgFailed 5 u.1 pod1.name (.api e)
        ⟨r.state, .updatePod pod1 (some e) :: r.log, r.out⟩
      else ⟨u.1, [.updatePod pod1 (some e)], .returned (some (.wrap (.api e) msgFirst))⟩

/-- Source `ElectorService.SetMasterLabel`. -/
def SetMasterLabel (c : Cluster σ) (s : σ) (pod : Pod) : Run σ Status :=
  setLabel c s GetMasterLabels "err set master label" "err set master retry"
    "err set master retry failed" pod

/-- Source `ElectorService.SetSlaveLabel`. -/
def SetSlaveLabel (c : Cluster σ) (s : σ) (pod : Pod) : Run σ Status :=
  setLabel c s GetSlaveLabels "err set slave label" "err set slave retry"
    "err set slave retry failed" pod

/-! ## controller.go -/

/-- Source `ControllerService.SuspendJob` (the delete is issued with background propagation). -/
def SuspendJob (c : Cluster σ) (s : σ) (name : String) : Run σ (Option GoErr) :=
  let d := c.deleteJob s name
  match d.2 with
  | some e => ⟨d.1, [.deleteJob name d.2], some (.wrap (.api e) "err suspendJob remove job")⟩
  | none => ⟨d.1, [.deleteJob name d.2], none⟩

/-- What a call of `CreateNewJob` leaves behind: its return value and the caller's label
mapping (a Go map is shared with the caller, so writes to it are visible afterwards). -/
structure CreateResult where
  out : Outcome Job
  labels : Option StrMap
  deriving DecidableEq, Repr

/-- The job object `CreateNewJob` builds for owner instance `pod`. -/
def buildJob (svc : Service) (pod : Pod) (jobName jobImage : String) (args : StrMap)
    (labels : StrMap) : Job :=
  let argsf : List String := args.foldl (fun acc kv => acc ++ ["--" ++ kv.1 ++ "=" ++ kv.2]) []
  let envs : List EnvVar := pod.containers.foldl (fun acc row => acc ++ row.env) []
  { name := ""
    generateName := pod.name ++ "-" ++ jobName
    ns := svc.ns
    labels := some labels
    spec :=
      { template :=
          { generateName := pod.name ++ "-" ++ jobName
            labels := some (mapSet [] GetAppLabel jobName)
            containers := [{ name := jobName ++ "-jb", image := jobImage, args := argsf, env := envs }]
            restartPolicy := "Never" }
        backoffLimit := some 0 }
    status := { succeeded := 0, failed := 0, completionTime := none, conditions := [] } }

/-- Source `ControllerService.CreateNewJob`.  `args` lists the entries of the argument mapping
in the order the iteration visits them. -/
def CreateNewJob (svc : Service) (c : Cluster σ) (s : σ) (podParentName jobName jobImage : String)
    (args : StrMap) (labels : Option StrMap) : Run σ CreateResult :=
  if podParentName = "" then ⟨s, [], ⟨.returned none (some (.new "Empty pod parent name")), labels⟩⟩
  else if jobName = "" then ⟨s, [], ⟨.returned none (some (.new "Empty job name")), labels⟩⟩
  else if jobImage = "" then ⟨s, [], ⟨.returned none (some (.new "Empty image")), labels⟩⟩
  else
    let g := GetInstanceInfo c s podParentName
    match g.out.err, g.out.val with
    | some e, _ => ⟨g.state, g.log, ⟨.returned none (some (.wrap e "err create job")), labels⟩⟩
    | none, none => ⟨g.state, g.log, ⟨.crashed "nil pointer dereference", labels⟩⟩
    | none, some pod =>
      match labels with
      | none => ⟨g.state, g.log, ⟨.crashed "assignment to entry in nil map", labels⟩⟩
      | some m =>
        let m2 := mapSet (mapSet m "parent" pod.name) GetAppLabel jobName
        let jb := buildJob svc pod jobName jobImage args m2
        let r := c.createJob g.state jb
        match r.2 with
        | .fail e =>
          ⟨r.1, g.log ++ [.createJob jb r.2],
            ⟨.returned none (some (.wrap (.api e) "err create job")), some m2⟩⟩
        | .ok job => ⟨r.1, g.log ++ [.createJob jb r.2], ⟨.returned (some job) none, some m2⟩⟩

/-- The loop of `ClearJobHistory` over `finished.Items`.  `none`: the loop ran to its end;
`some st`: the routine left from inside the loop with `st`. -/
def sweepFinished (c : Cluster σ) (now after : Time) : List Job → σ → Run σ (Option Status)
  | [], s => ⟨s, [], none⟩
  | job :: rest, s =>
    match job.status.completionTime with
    | none => ⟨s, [], some (.crashed "nil pointer dereference")⟩
    | some ct =>
      if now > ct + after then
        let d := SuspendJob c s job.name
        match d.out with
        | some e =>
          ⟨d.state, d.log,
            some (.returned (some (.wrap e ("err clearHistory delete job " ++ job.name))))⟩
        | none =>
          let r := sweepFinished c now after rest d.state
          ⟨r.state, d.log ++ r.log, r.out⟩
      else sweepFinished c now after rest s

/-- The inner loop of `ClearJobHistory` over the conditions of one failed job.  `none`: the
loop ended (at its end or by `break`); `some st`: the routine left with `st`. -/
def scanConditions (c : Cluster σ) (now after : Time) (jobName : String) :
    List JobCondition → σ → Run σ (Option Status)
  | [], s => ⟨s, [], none⟩
  | cond :: rest, s =>
    if now > cond.lastTransitionTime + after then
      let d := SuspendJob c s jobName
      match d.out with
      | some e =>
        ⟨d.state, d.log,
          some (.returned (some (.wrap e ("err clearHistory delete job " ++ jobName))))⟩
      | none => ⟨d.state, d.log, none⟩
    else scanConditions c now after jobName rest s

/-- The loop of `ClearJobHistory` over `failed.Items`. -/
def sweepFailed (c : Cluster σ) (now after : Time) : List Job → σ → Run σ (Option Status)
  | [], s => ⟨s, [], none⟩
  | job :: rest, s =>
    let d := scanConditions c now after job.name job.status.conditions s
    match d.out with
    | some st => ⟨d.state, d.log, some st⟩
    | none =>
      let r := sweepFailed c now after rest d.state
      ⟨r.state, d.log ++ r.log, r.out⟩

/-- Source `ControllerService.ClearJobHistory`; `now` is the reading of `time.Now()`, taken
as one instant for the whole sweep, `after` the retention. -/
def ClearJobHistory (c : Cluster σ) (s : σ) (now : Time) (name : String) (after : Time) :
    Run σ Status :=
  let g := GetJobs c s name
  match g.out.err, g.out.finished, g.out.failed with
  | some e, _, _ =>
    ⟨g.state, g.log, .returned (some (.wrap e "err clearHistory get completed jobs"))⟩
  | none, some finished, some failed =>
    let r1 := sweepFinished c now after finished g.state
    match r1.out with
    | some st => ⟨r1.state, g.log ++ r1.log, st⟩
    | none =>
      let r2 := sweepFailed c now after failed r1.state
      match r2.out with
      | some st => ⟨r2.state, g.log ++ r1.log ++ r2.log, st⟩
      | none => ⟨r2.state, g.log ++ r1.log ++ r2.log, .returned none⟩
  | none, _, _ => ⟨g.state, g.log, .crashed "nil pointer dereference"⟩

/-! ## Reading a log -/

/-- The objects written by the update calls of a log, in order. -/
def updatesOf : List Event → List Pod
  | [] => []
  | .updatePod obj _ :: l => obj :: updatesOf l
  | _ :: l => updatesOf l

/-- The three kinds of answer to an update call. -/
inductive Answer where
  | success
  | conflict
  | failure
  deriving DecidableEq, Repr

/-- The kind of an answer to an update call. -/
def answerKind : Option ApiError → Answer
  | none => .success
  | some e => if IsConflict e then .conflict else .failure

/-- The kinds of the answers to the update calls of a log, in order. -/
def updateKinds : List Event → List Answer
  | [] => []
  | .updatePod _ resp :: l => answerKind resp :: updateKinds l
  | _ :: l => updateKinds l

/-- The names asked for by the fetch calls of a log, in order. -/
def fetchesOf : List Event → List String
  | [] => []
  | .getPod name _ :: l => name :: fetchesOf l
  | _ :: l => fetchesOf l

/-- The job names of the delete calls of a log, in order. -/
def deletesOf : List Event → List String
  | [] => []
  | .deleteJob name _ :: l => name :: deletesOf l
  | _ :: l => deletesOf l

/-- The jobs submitted by the create calls of a log, in order. -/
def createsOf : List Event → List Job
  | [] => []
  | .createJob obj _ :: l => obj :: createsOf l
  | _ :: l => createsOf l

/-- Spec-side reading of "a finished job whose completion time plus retention is in the
past": succeeded > 0, a completion time is recorded, and `now` is strictly after it plus the
retention. -/
def expiredFinished (now after : Time) (j : Job) : Bool :=
  decide (j.status.succeeded > 0) &&
    (match j.status.completionTime with
     | some ct => decide (now > ct + after)
     | none => false)

/-- Spec-side reading of "a failed job one of whose conditions is past retention": not
finished, failed > 0, and some condition has `now` strictly after its last transition plus
the retention. -/
def expiredFailed (now after : Time) (j : Job) : Bool :=
  !decide (j.status.succeeded > 0) && decide (j.status.failed > 0) &&
    j.status.conditions.any (fun cd => decide (now > cd.lastTransitionTime + after))

/-- A call after which the spec lets a label write go no further: an update answered with an
error that is not a version conflict, or a fetch answered with an error. -/
def isAbort : Event → Bool
  | .updatePod _ (some e) => !IsConflict e
  | .getPod _ (.fail _) => true
  | _ => false

/-- Spec-side statement of "aborts immediately": whenever a call of the log is an abort call,
nothing follows it in the log and the routine returned an error. -/
def AbortsAtOnce (log : List Event) (out : Status) : Prop :=
  ∀ pre ev post, log = pre ++ ev :: post → isAbort ev = true →
    post = [] ∧ ∃ e, out = .returned (some e)

/-- Spec-side statement of "`w` is `q` with label `k` set to `v` and its other labels
unchanged". -/
def IsRelabelOf (w q : Pod) (k v : String) : Prop :=
  w.name = q.name ∧ w.containers = q.containers ∧
  ∃ lq lw, q.labels = some lq ∧ w.labels = some lw ∧ mapGet lw k = some v ∧
    ∀ j, j ≠ k → mapGet lw j = mapGet lq j

/-! ## Test doubles -/

/-- A cluster double.  Its state counts the update calls answered so far: update number `k`
(from 0) is answered `upd k`.  A fetch of `n` is answered `get n`, the two list calls are
answered `pods` and `jobs`, creation echoes the submitted job, deletion succeeds. -/
def scripted (upd : Nat → Option ApiError) (get : String → Resp Pod)
    (pods : Resp (List Pod)) (jobs : Resp (List Job)) : Cluster Nat where
  getPod s n := (s, get n)
  updatePod s _ := (s + 1, upd s)
  listPods s _ := (s, pods)
  listJobs s _ := (s, jobs)
  createJob s j := (s, .ok j)
  deleteJob s _ := (s, none)

/-- A version-conflict answer. -/
def conflictErr : ApiError := .status "Conflict" "the object has been modified"

/-- A not-found answer. -/
def notFoundErr : ApiError := .status "NotFound" "pods not found"

/-- A sample instance. -/
def podA : Pod := { name := "web-0", labels := some [("app", "web")], containers := [] }

/-- A double that knows `podA` only and has no jobs. -/
def quietCluster : Cluster Nat :=
  scripted (fun _ => none) (fun n => if n = "web-0" then .ok podA else .fail notFoundErr)
    (.ok [podA]) (.ok [])

/-- A double that answers the first `k` updates with a version conflict and every later one
with success, and knows `podA` only. -/
def flakyCluster (k : Nat) : Cluster Nat :=
  scripted (fun i => if i < k then some conflictErr else none)
    (fun n => if n = "web-0" then .ok podA else .fail notFoundErr) (.ok [podA]) (.ok [])

/-- A double whose updates all fail with an error that is not a version conflict. -/
def brokenCluster : Cluster Nat :=
  scripted (fun _ => some (.other "connection refused"))
    (fun n => if n = "web-0" then .ok podA else .fail notFoundErr) (.ok [podA]) (.ok [])

/-- A double that answers every update with a version conflict and knows no instance. -/
def lostCluster : Cluster Nat :=
  scripted (fun _ => some conflictErr) (fun _ => .fail notFoundErr) (.ok []) (.ok [])

/-- An instance named like `podA` that carries no label mapping (a nil map). -/
def podBare : Pod := { name := "web-0", labels := none, containers := [] }

/-- A caller-side copy of the instance `web-0` with a label the copy `podA` lacks. -/
def podTier : Pod :=
  { name := "web-0", labels := some [("app", "web"), ("tier", "x")], containers := [] }

/-- A double that answers the first `k` updates with a version conflict and every later one
with success, and answers every fetch with the unlabelled `podBare`. -/
def bareCluster (k : Nat) : Cluster Nat :=
  scripted (fun i => if i < k then some conflictErr else none) (fun _ => .ok podBare)
    (.ok [podBare]) (.ok [])

/-- A job with the given name and status. -/
def mkJob (name : String) (st : JobStatus) : Job :=
  { name := name, generateName := "", ns := "default", labels := none,
    spec := { template := { generateName := "", labels := none, containers := [],
                            restartPolicy := "Never" },
              backoffLimit := some 0 },
    status := st }

/-- A finished job, completed at instant 100. -/
def jobDone : Job :=
  mkJob "j-done" { succeeded := 1, failed := 0, completionTime := some 100, conditions := [] }

/-- A failed job with conditions at instants 50 and 60. -/
def jobBad : Job :=
  mkJob "j-bad" { succeeded := 0, failed := 1, completionTime := none,
                  conditions := [⟨50⟩, ⟨60⟩] }

/-- A pending job. -/
def jobWait : Job :=
  mkJob "j-wait" { succeeded := 0, failed := 0, completionTime := none, conditions := [⟨10⟩] }

/-- A job that has one success recorded and no completion time yet. -/
def jobHalf : Job :=
  mkJob "j-half" { succeeded := 1, failed := 0, completionTime := none, conditions := [] }

/-- A double that lists the given jobs. -/
def jobsCluster (jobs : List Job) : Cluster Nat :=
  scripted (fun _ => none) (fun _ => .fail notFoundErr) (.ok []) (.ok jobs)

/-! ## Lemmas on maps and on the classification loop -/

/-- Reading a key just written gives the written value. -/
theorem mapGet_mapSet_same (m : StrMap) (k v : String) : mapGet (mapSet m k v) k = some v := by
  induction m with
  | nil => simp [mapSet, mapGet]
  | cons kv m ih =>
    obtain ⟨k', v'⟩ := kv
    by_cases h : k' = k
    · simp [mapSet, mapGet, h]
    · simp [mapSet, mapGet, h, ih]

/-- Writing a key leaves the reading of every other key as it was. -/
theorem mapGet_mapSet_other (m : StrMap) (k v j : String) (hj : j ≠ k) :
    mapGet (mapSet m k v) j = mapGet m j := by
  induction m with
  | nil => simp [mapSet, mapGet, Ne.symm hj]
  | cons kv m ih =>
    obtain ⟨k', v'⟩ := kv
    by_cases h : k' = k
    · subst h
      simp [mapSet, mapGet, Ne.symm hj]
    · by_cases h2 : k' = j
      · subst h2
        simp [mapSet, mapGet, h]
      · simp [mapSet, mapGet, h, h2, ih]

/-- The classification loop, started from any buckets, appends to each bucket the matching
jobs in order. -/
theorem foldl_classify (jobs : List Job) (a b d : List Job) :
    jobs.foldl classify (a, b, d) =
      (a ++ jobs.filter (fun j => decide (j.status.succeeded > 0)),
       b ++ jobs.filter (fun j => !decide (j.status.succeeded > 0) && decide (j.status.failed > 0)),
       d ++ jobs.filter (fun j => !decide (j.status.succeeded > 0) && !decide (j.status.failed > 0))) := by
  induction jobs generalizing a b d with
  | nil => simp
  | cons j jobs ih =>
    rw [List.foldl_cons]
    by_cases h1 : j.status.succeeded > 0
    · simp [classify, h1, ih]
    · by_cases h2 : j.status.failed > 0
      · simp [classify, h1, h2, ih]
      · simp [classify, h1, h2, ih]

/-! ## Instance directory -/

/-- C1: when the list call for the selector role=master,app=name succeeds, `GetMasterInstance`
issues that one call and returns no instance and no error for an empty list, the listed
instance and no error for a one-element list, and the count-mismatch error with no instance
for a list of two or more. -/
theorem GetMasterInstance_cardinality (c : Cluster σ) (s : σ) (name : String) (pods : List Pod)
    (hlist : (c.listPods s [("role", "master"), ("app", name)]).2 = .ok pods) :
    (GetMasterInstance c s name).log
        = [.listPods [("role", "master"), ("app", name)] (.ok pods)] ∧
    (pods = [] → (GetMasterInstance c s name).out = ⟨none, none⟩) ∧
    (∀ p, pods = [p] → (GetMasterInstance c s name).out = ⟨some p, none⟩) ∧
    (2 ≤ pods.length →
      (GetMasterInstance c s name).out = ⟨none, some (.new "error instance count mismatch")⟩) := by
  have hsel : mapSet (mapSet [] GetMasterLabels.1 GetMasterLabels.2) GetAppLabel name
      = [("role", "master"), ("app", name)] := by
    simp [mapSet, GetMasterLabels, GetAppLabel]
  refine ⟨?_, ?_, ?_, ?_⟩
  · simp only [GetMasterInstance, hsel, hlist]
    split_ifs <;> rfl
  · intro h
    subst h
    simp [GetMasterInstance, hsel, hlist]
  · intro p h
    subst h
    simp [GetMasterInstance, hsel, hlist]
  · intro h
    have h1 : ¬ pods.length < 1 := by omega
    have h2 : pods.length > 1 := by omega
    simp [GetMasterInstance, hsel, hlist, h1, h2]

/-- C1 on a double that lists one master: that instance is returned, with no error. -/
theorem GetMasterInstance_cardinality_witness :
    (GetMasterInstance quietCluster 0 "web").out = ⟨some podA, none⟩ :=
  (GetMasterInstance_cardinality quietCluster 0 "web" [podA] rfl).2.2.1 podA rfl

/-- C2: when the job list call succeeds with `jobs`, `GetJobs` returns no error and three
buckets: finished is the jobs with succeeded > 0, failed the jobs with succeeded <= 0 and
failed > 0, pending the remaining jobs, each in the order of `jobs`; every job of `jobs` is in
exactly one bucket and the bucket lengths add up to the length of `jobs`. -/
theorem GetJobs_partition (c : Cluster σ) (s : σ) (name : String) (jobs : List Job)
    (hlist : (c.listJobs s [("app", name)]).2 = .ok jobs) :
    ∃ finished failed pending : List Job,
      (GetJobs c s name).out = ⟨some finished, some failed, some pending, none⟩ ∧
      finished = jobs.filter (fun j => decide (j.status.succeeded > 0)) ∧
      failed = jobs.filter
        (fun j => decide (j.status.succeeded ≤ 0) && decide (j.status.failed > 0)) ∧
      pending = jobs.filter
        (fun j => !decide (j.status.succeeded > 0) &&
          !(decide (j.status.succeeded ≤ 0) && decide (j.status.failed > 0))) ∧
      (∀ j ∈ jobs, (j ∈ finished ∧ j ∉ failed ∧ j ∉ pending) ∨
                   (j ∉ finished ∧ j ∈ failed ∧ j ∉ pending) ∨
                   (j ∉ finished ∧ j ∉ failed ∧ j ∈ pending)) ∧
      (∀ j, j ∈ finished ∨ j ∈ failed ∨ j ∈ pending → j ∈ jobs) ∧
      finished.length + failed.length + pending.length = jobs.length := by
  have hsel : mapSet [] GetAppLabel name = [("app", name)] := by simp [mapSet, GetAppLabel]
  refine ⟨_, _, _, ?_, rfl, rfl, rfl, ?_, ?_, ?_⟩
  · simp only [GetJobs, hsel, hlist, foldl_classify, List.nil_append]
    congr 3
    · funext j
      by_cases h : 0 < j.status.succeeded <;> simp [h, not_le.mpr, not_lt.mp]
    · funext j
      by_cases h : 0 < j.status.succeeded <;> simp [h, not_le.mpr, not_lt.mp]
  · intro j hj
    simp only [List.mem_filter, hj, true_and]
    by_cases h1 : 0 < j.status.succeeded
    · simp [h1]
    · by_cases h2 : 0 < j.status.failed
      · simp [h1, h2, not_lt.mp h1]
      · simp [h1, h2]
  · intro j hj
    simp only [List.mem_filter] at hj
    rcases hj with h | h | h <;> exact h.1
  · clear hlist
    induction jobs with
    | nil => simp
    | cons j jobs ih =>
      simp only [List.filter_cons, List.length_cons]
      by_cases h1 : 0 < j.status.succeeded
      · simp only [gt_iff_lt, h1, decide_True, not_le.mpr h1, decide_False, Bool.not_true,
          Bool.false_and, Bool.and_false, if_true, if_false, List.length_cons,
          Bool.false_eq_true] at ih ⊢
        omega
      · by_cases h2 : 0 < j.status.failed
        · simp only [gt_iff_lt, h1, h2, decide_True, not_lt.mp h1, decide_False, Bool.not_true,
            Bool.not_false, Bool.true_and, Bool.and_true, Bool.false_and, Bool.and_false,
            if_true, if_false, List.length_cons, Bool.false_eq_true] at ih ⊢
          omega
        · simp only [gt_iff_lt, h1, h2, decide_True, not_lt.mp h1, decide_False, Bool.not_true,
            Bool.not_false, Bool.true_and, Bool.and_true, Bool.false_and, Bool.and_false,
            if_true, if_false, List.length_cons, Bool.false_eq_true] at ih ⊢
          omega

/-- C2 on a double listing a pending, a finished and a failed job. -/
theorem GetJobs_partition_witness :
    ∃ finished failed pending : List Job,
      (GetJobs (jobsCluster [jobWait, jobDone, jobBad]) 0 "web").out
        = ⟨some finished, some failed, some pending, none⟩ ∧
      finished.length + failed.length + pending.length = 3 := by
  obtain ⟨f, g, h, h1, _, _, _, _, _, h2⟩ :=
    GetJobs_partition (jobsCluster [jobWait, jobDone, jobBad]) 0 "web"
      [jobWait, jobDone, jobBad] rfl
  exact ⟨f, g, h, h1, h2⟩

/-- C9 (as stated, refuted): with the current-instance identity unset (empty string),
`GetCurrentInstance` returns no instance and no error, not a not-found error. -/
theorem GetCurrentInstance_unset_returns_nothing :
    (⟨"default", ""⟩ : Service).podName = "" ∧
    (GetCurrentInstance ⟨"default", ""⟩ quietCluster 0).out = ⟨none, none⟩ ∧
    (GetCurrentInstance ⟨"default", ""⟩ quietCluster 0).out.err
      ≠ some (.new "instance not found") := by
  refine ⟨rfl, rfl, ?_⟩
  simp [GetCurrentInstance]

/-- C9 (amended): with a non-empty identity that names an instance absent from the cluster
(the fetch is answered not-found), `GetCurrentInstance` issues that one fetch and fails with
the error "instance not found", returning no instance; with the identity unset (empty
string) it returns no instance and no error without any cluster call. -/
theorem GetCurrentInstance_absent_or_unset (svc : Service) (c : Cluster σ) (s : σ) :
    (svc.podName ≠ "" → ∀ e, (c.getPod s svc.podName).2 = .fail e → IsNotFound e = true →
      (GetCurrentInstance svc c s).out = ⟨none, some (.new "instance not found")⟩ ∧
      (GetCurrentInstance svc c s).log = [.getPod svc.podName (.fail e)]) ∧
    (svc.podName = "" →
      (GetCurrentInstance svc c s).out = ⟨none, none⟩ ∧ (GetCurrentInstance svc c s).log = [] ∧
      (GetCurrentInstance svc c s).state = s) := by
  constructor
  · intro hne e he hnf
    simp [GetCurrentInstance, hne, he, getResult, hnf]
  · intro h
    simp [GetCurrentInstance, h]

/-- C9 (amended) on a double that does not know the instance named by the identity. -/
theorem GetCurrentInstance_absent_or_unset_witness :
    (GetCurrentInstance ⟨"default", "ghost"⟩ quietCluster 0).out
        = ⟨none, some (.new "instance not found")⟩ ∧
    (GetCurrentInstance ⟨"default", "ghost"⟩ quietCluster 0).log
        = [.getPod "ghost" (.fail notFoundErr)] :=
  (GetCurrentInstance_absent_or_unset ⟨"default", "ghost"⟩ quietCluster 0).1
    (by decide) notFoundErr rfl rfl

/-! ## Job controller -/

/-- C7: when the owner name, the job name or the image is the empty string, `CreateNewJob`
returns an error and no job, issues no cluster call at all, leaves the cluster state as it
was and leaves the caller-supplied label mapping unchanged. -/
theorem CreateNewJob_validation (svc : Service) (c : Cluster σ) (s : σ)
    (owner jobName image : String) (args : StrMap) (labels : Option StrMap)
    (hempty : owner = "" ∨ jobName = "" ∨ image = "") :
    (∃ e, (CreateNewJob svc c s owner jobName image args labels).out.out
        = .returned none (some e)) ∧
    (CreateNewJob svc c s owner jobName image args labels).log = [] ∧
    (CreateNewJob svc c s owner jobName image args labels).state = s ∧
    (CreateNewJob svc c s owner jobName image args labels).out.labels = labels := by
  unfold CreateNewJob
  by_cases h1 : owner = ""
  · simp [h1]
  · by_cases h2 : jobName = ""
    · simp [h1, h2]
    · by_cases h3 : image = ""
      · simp [h1, h2, h3]
      · simp [h1, h2, h3] at hempty

/-- C7 on a call with an empty job name. -/
theorem CreateNewJob_validation_witness :
    (CreateNewJob ⟨"default", "web-0"⟩ quietCluster 0 "web-0" "" "busybox" []
        (some [("team", "a")])).log = [] ∧
    (CreateNewJob ⟨"default", "web-0"⟩ quietCluster 0 "web-0" "" "busybox" []
        (some [("team", "a")])).out.labels = some [("team", "a")] :=
  let h := CreateNewJob_validation ⟨"default", "web-0"⟩ quietCluster 0 "web-0" "" "busybox" []
    (some [("team", "a")]) (Or.inr (Or.inl rfl))
  ⟨h.2.1, h.2.2.2⟩

/-! ## Role-label writes -/

/-- With no iteration left the loop is over: the routine wraps the last error. -/
theorem retryLoop_zero (c : Cluster σ) (key val msgRetry msgFailed : String) (s : σ)
    (name : String) (err : GoErr) :
    retryLoop c key val msgRetry msgFailed 0 s name err
      = ⟨s, [], .returned (some (.wrap err msgFailed))⟩ := rfl

/-- One iteration of the retry loop: the five ways it can go. -/
theorem retryLoop_succ_cases (c : Cluster σ) (key val msgRetry msgFailed : String) (n : Nat)
    (s : σ) (name : String) (err : GoErr) :
    (∃ e ge, (c.getPod s name).2 = .fail e ∧
      (retryLoop c key val msgRetry msgFailed (n + 1) s name err).log
        = [.sleep, .getPod name (.fail e)] ∧
      (retryLoop c key val msgRetry msgFailed (n + 1) s name err).out
        = .returned (some (.wrap ge "err get pod retry"))) ∨
    (∃ q, (c.getPod s name).2 = .ok q ∧ q.labels = none ∧
      (retryLoop c key val msgRetry msgFailed (n + 1) s name err).log
        = [.sleep, .getPod name (.ok q)] ∧
      (retryLoop c key val msgRetry msgFailed (n + 1) s name err).out
        = .crashed "assignment to entry in nil map") ∨
    (∃ q m, (c.getPod s name).2 = .ok q ∧ q.labels = some m ∧
      (c.updatePod (c.getPod s name).1 { q with labels := some (mapSet m key val) }).2 = none ∧
      (retryLoop c key val msgRetry msgFailed (n + 1) s name err).log
        = [.sleep, .getPod name (.ok q),
            .updatePod { q with labels := some (mapSet m key val) } none] ∧
      (retryLoop c key val msgRetry msgFailed (n + 1) s name err).out = .returned none) ∨
    (∃ q m e, (c.getPod s name).2 = .ok q ∧ q.labels = some m ∧
      (c.updatePod (c.getPod s name).1 { q with labels := some (mapSet m key val) }).2 = some e ∧
      IsConflict e = false ∧
      (retryLoop c key val msgRetry msgFailed (n + 1) s name err).log
        = [.sleep, .getPod name (.ok q),
            .updatePod { q with labels := some (mapSet m key val) } (some e)] ∧
      (retryLoop c key val msgRetry msgFailed (n + 1) s name err).out
        = .returned (some (.wrap (.api e) msgRetry))) ∨
    (∃ q m e, (c.getPod s name).2 = .ok q ∧ q.labels = some m ∧
      (c.updatePod (c.getPod s name).1 { q with labels := some (mapSet m key val) }).2 = some e ∧
      IsConflict e = true ∧
      (retryLoop c key val msgRetry msgFailed (n + 1) s name err).log
        = .sleep :: .getPod name (.ok q) ::
            .updatePod { q with labels := some (mapSet m key val) } (some e) ::
            (retryLoop c key val msgRetry msgFailed n
              (c.updatePod (c.getPod s name).1 { q with labels := some (mapSet m key val) }).1
              q.name (.api e)).log ∧
      (retryLoop c key val msgRetry msgFailed (n + 1) s name err).out
        = (retryLoop c key val msgRetry msgFailed n
              (c.updatePod (c.getPod s name).1 { q with labels := some (mapSet m key val) }).1
              q.name (.api e)).out) := by
  cases hg : (c.getPod s name).2 with
  | fail e =>
    left
    by_cases hnf : IsNotFound e = true
    · exact ⟨e, .new "instance not found", rfl,
        by simp [retryLoop, GetInstanceInfo, getResult, hg, hnf]⟩
    · cases e with
      | status r msg =>
        exact ⟨_, .new ("error getting instance " ++ msg ++ "\n"), rfl,
          by simp [retryLoop, GetInstanceInfo, getResult, hg, hnf]⟩
      | other t =>
        exact ⟨_, .api (.other t), rfl,
          by simp [retryLoop, GetInstanceInfo, getResult, hg, hnf]⟩
  | ok q =>
    right
    cases hl : q.labels with
    | none =>
      left
      exact ⟨q, rfl, hl, by simp [retryLoop, GetInstanceInfo, getResult, hg, hl]⟩
    | some m =>
      right
      cases hu : (c.updatePod (c.getPod s name).1 { q with labels := some (mapSet m key val) }).2 with
      | none =>
        left
        exact ⟨q, m, rfl, hl, hu, by simp [retryLoop, GetInstanceInfo, getResult, hg, hl, hu]⟩
      | some e =>
        right
        by_cases hc : IsConflict e = true
        · right
          exact ⟨q, m, e, rfl, hl, hu, hc,
            by simp [retryLoop, GetInstanceInfo, getResult, hg, hl, hu, hc]⟩
        · left
          exact ⟨q, m, e, rfl, hl, hu, by simpa using hc,
            by simp [retryLoop, GetInstanceInfo, getResult, hg, hl, hu, hc]⟩

/-- An empty log aborts at once. -/
theorem abortsAtOnce_nil (out : Status) : AbortsAtOnce [] out := by
  intro pre ev post h
  simp at h

/-- A call that is no abort call may be put in front. -/
theorem abortsAtOnce_cons (x : Event) (l : List Event) (out : Status)
    (hx : isAbort x = false) (hl : AbortsAtOnce l out) : AbortsAtOnce (x :: l) out := by
  intro pre ev post h hab
  cases pre with
  | nil =>
    simp only [List.nil_append, List.cons.injEq] at h
    rw [h.1, hab] at hx
    exact absurd hx (by simp)
  | cons y pre =>
    simp only [List.cons_append, List.cons.injEq] at h
    exact hl pre ev post h.2 hab

/-- A one-call run that returned an error aborts at once. -/
theorem abortsAtOnce_single (x : Event) (e : GoErr) :
    AbortsAtOnce [x] (.returned (some e)) := by
  intro pre ev post h _
  cases pre with
  | nil =>
    simp only [List.nil_append, List.cons.injEq] at h
    exact ⟨h.2.symm, e, rfl⟩
  | cons y pre =>
    simp at h

/-- The retry loop, from any iteration on, aborts at once. -/
theorem retryLoop_abortsAtOnce (c : Cluster σ) (key val msgRetry msgFailed : String) (n : Nat) :
    ∀ (s : σ) (name : String) (err : GoErr),
      AbortsAtOnce (retryLoop c key val msgRetry msgFailed n s name err).log
        (retryLoop c key val msgRetry msgFailed n s name err).out := by
  induction n with
  | zero =>
    intro s name err
    rw [retryLoop_zero]
    exact abortsAtOnce_nil _
  | succ n ih =>
    intro s name err
    rcases retryLoop_succ_cases c key val msgRetry msgFailed n s name err with
      ⟨e, ge, _, hlog, hout⟩ | ⟨q, _, _, hlog, hout⟩ | ⟨q, m, _, _, _, hlog, hout⟩ |
      ⟨q, m, e, _, _, _, hc, hlog, hout⟩ | ⟨q, m, e, _, _, _, hc, hlog, hout⟩
    · rw [hlog, hout]
      exact abortsAtOnce_cons _ _ _ rfl (abortsAtOnce_single _ _)
    · rw [hlog, hout]
      exact abortsAtOnce_cons _ _ _ rfl (abortsAtOnce_cons _ _ _ rfl (abortsAtOnce_nil _))
    · rw [hlog, hout]
      exact abortsAtOnce_cons _ _ _ rfl (abortsAtOnce_cons _ _ _ rfl
        (abortsAtOnce_cons _ _ _ rfl (abortsAtOnce_nil _)))
    · rw [hlog, hout]
      exact abortsAtOnce_cons _ _ _ rfl (abortsAtOnce_cons _ _ _ rfl (abortsAtOnce_single _ _))
    · rw [hlog, hout]
      refine abortsAtOnce_cons _ _ _ rfl (abortsAtOnce_cons _ _ _ rfl
        (abortsAtOnce_cons _ _ _ ?_ (ih _ _ _)))
      simp [isAbort, hc]

/-- The ways the first write of a label write can go. -/
theorem setLabel_cases (c : Cluster σ) (s : σ) (kv : String × String)
    (msgFirst msgRetry msgFailed : String) (p : Pod) :
    (p.labels = none ∧ (setLabel c s kv msgFirst msgRetry msgFailed p).log = [] ∧
      (setLabel c s kv msgFirst msgRetry msgFailed p).out
        = .crashed "assignment to entry in nil map") ∨
    (∃ m, p.labels = some m ∧
      (c.updatePod s { p with labels := some (mapSet m kv.1 kv.2) }).2 = none ∧
      (setLabel c s kv msgFirst msgRetry msgFailed p).log
        = [.updatePod { p with labels := some (mapSet m kv.1 kv.2) } none] ∧
      (setLabel c s kv msgFirst msgRetry msgFailed p).out = .returned none) ∨
    (∃ m e, p.labels = some m ∧
      (c.updatePod s { p with labels := some (mapSet m kv.1 kv.2) }).2 = some e ∧
      IsConflict e = false ∧
      (setLabel c s kv msgFirst msgRetry msgFailed p).log
        = [.updatePod { p with labels := some (mapSet m kv.1 kv.2) } (some e)] ∧
      (setLabel c s kv msgFirst msgRetry msgFailed p).out
        = .returned (some (.wrap (.api e) msgFirst))) ∨
    (∃ m e, p.labels = some m ∧
      (c.updatePod s { p with labels := some (mapSet m kv.1 kv.2) }).2 = some e ∧
      IsConflict e = true ∧
      (setLabel c s kv msgFirst msgRetry msgFailed p).log
        = .updatePod { p with labels := some (mapSet m kv.1 kv.2) } (some e) ::
            (retryLoop c kv.1 kv.2 msgRetry msgFailed 5
              (c.updatePod s { p with labels := some (mapSet m kv.1 kv.2) }).1
              p.name (.api e)).log ∧
      (setLabel c s kv msgFirst msgRetry msgFailed p).out
        = (retryLoop c kv.1 kv.2 msgRetry msgFailed 5
              (c.updatePod s { p with labels := some (mapSet m kv.1 kv.2) }).1
              p.name (.api e)).out) := by
  cases hl : p.labels with
  | none =>
    left
    exact ⟨rfl, by simp [setLabel, hl]⟩
  | some m =>
    right
    cases hu : (c.updatePod s { p with labels := some (mapSet m kv.1 kv.2) }).2 with
    | none =>
      left
      exact ⟨m, rfl, hu, by simp [setLabel, hl, hu]⟩
    | some e =>
      right
      by_cases hc : IsConflict e = true
      · right
        exact ⟨m, e, rfl, hu, hc, by simp [setLabel, hl, hu, hc]⟩
      · left
        exact ⟨m, e, rfl, hu, by simpa using hc, by simp [setLabel, hl, hu, hc]⟩

/-- A label write aborts at once. -/
theorem setLabel_abortsAtOnce (c : Cluster σ) (s : σ) (kv : String × String)
    (msgFirst msgRetry msgFailed : String) (p : Pod) :
    AbortsAtOnce (setLabel c s kv msgFirst msgRetry msgFailed p).log
      (setLabel c s kv msgFirst msgRetry msgFailed p).out := by
  rcases setLabel_cases c s kv msgFirst msgRetry msgFailed p with
    ⟨_, hlog, hout⟩ | ⟨m, _, _, hlog, hout⟩ | ⟨m, e, _, _, hc, hlog, hout⟩ |
    ⟨m, e, _, _, hc, hlog, hout⟩
  · rw [hlog, hout]
    exact abortsAtOnce_nil _
  · rw [hlog, hout]
    exact abortsAtOnce_cons _ _ _ rfl (abortsAtOnce_nil _)
  · rw [hlog, hout]
    exact abortsAtOnce_single _ _
  · rw [hlog, hout]
    refine abortsAtOnce_cons _ _ _ ?_ (retryLoop_abortsAtOnce _ _ _ _ _ _ _ _ _)
    simp [isAbort, hc]

/-- The run of a label write whose first update is answered with an error that is not a
version conflict. -/
theorem setLabel_first_failure (c : Cluster σ) (s : σ) (kv : String × String)
    (msgFirst msgRetry msgFailed : String) (p w : Pod) (e : ApiError) (rest : List Event)
    (hlog : (setLabel c s kv msgFirst msgRetry msgFailed p).log = .updatePod w (some e) :: rest)
    (hc : IsConflict e = false) :
    rest = [] ∧ (setLabel c s kv msgFirst msgRetry msgFailed p).out
      = .returned (some (.wrap (.api e) msgFirst)) := by
  rcases setLabel_cases c s kv msgFirst msgRetry msgFailed p with
    ⟨_, hlog2, hout⟩ | ⟨m, _, _, hlog2, hout⟩ | ⟨m, e2, _, _, hc2, hlog2, hout⟩ |
    ⟨m, e2, _, _, hc2, hlog2, hout⟩
  · rw [hlog2] at hlog
    simp at hlog
  · rw [hlog2] at hlog
    simp at hlog
  · rw [hlog2] at hlog
    simp only [List.cons.injEq, Event.updatePod.injEq, Option.some.injEq] at hlog
    obtain ⟨⟨_, he⟩, hr⟩ := hlog
    subst he
    exact ⟨hr.symm, hout⟩
  · rw [hlog2] at hlog
    simp only [List.cons.injEq, Event.updatePod.injEq, Option.some.injEq] at hlog
    obtain ⟨⟨_, he⟩, _⟩ := hlog
    subst he
    rw [hc] at hc2
    exact absurd hc2 (by simp)

/-- C5: in every run of `SetMasterLabel` and of `SetSlaveLabel`, an update answered with an
error that is not a version conflict, or a fetch answered with an error, is the last call of
the run and the operation returns an error; in particular, when the first update is answered
with such an error the run consists of that one update and no fetch. -/
theorem setLabel_aborts_on_first_failure (c : Cluster σ) (s : σ) (p : Pod) :
    AbortsAtOnce (SetMasterLabel c s p).log (SetMasterLabel c s p).out ∧
    AbortsAtOnce (SetSlaveLabel c s p).log (SetSlaveLabel c s p).out ∧
    (∀ w e rest, (SetMasterLabel c s p).log = .updatePod w (some e) :: rest →
      IsConflict e = false →
      (updatesOf (SetMasterLabel c s p).log).length = 1 ∧
      fetchesOf (SetMasterLabel c s p).log = [] ∧
      (SetMasterLabel c s p).log = [.updatePod w (some e)] ∧
      (SetMasterLabel c s p).out = .returned (some (.wrap (.api e) "err set master label"))) ∧
    (∀ w e rest, (SetSlaveLabel c s p).log = .updatePod w (some e) :: rest →
      IsConflict e = false →
      (updatesOf (SetSlaveLabel c s p).log).length = 1 ∧
      fetchesOf (SetSlaveLabel c s p).log = [] ∧
      (SetSlaveLabel c s p).log = [.updatePod w (some e)] ∧
      (SetSlaveLabel c s p).out = .returned (some (.wrap (.api e) "err set slave label"))) := by
  refine ⟨setLabel_abortsAtOnce _ _ _ _ _ _ _, setLabel_abortsAtOnce _ _ _ _ _ _ _, ?_, ?_⟩
  · intro w e rest hlog hc
    obtain ⟨hr, hout⟩ := setLabel_first_failure c s _ _ _ _ p w e rest hlog hc
    subst hr
    rw [hlog]
    exact ⟨rfl, rfl, rfl, hout⟩
  · intro w e rest hlog hc
    obtain ⟨hr, hout⟩ := setLabel_first_failure c s _ _ _ _ p w e rest hlog hc
    subst hr
    rw [hlog]
    exact ⟨rfl, rfl, rfl, hout⟩

/-- C5 on a double whose first update fails outright, and on one whose first re-fetch fails. -/
theorem setLabel_aborts_on_first_failure_witness :
    ((SetMasterLabel brokenCluster 0 podA).log
        = [.updatePod { podA with labels := some [("app", "web"), ("role", "master")] }
            (some (.other "connection refused"))] ∧
      (SetMasterLabel brokenCluster 0 podA).out
        = .returned (some (.wrap (.api (.other "connection refused")) "err set master label"))) ∧
    ((SetSlaveLabel lostCluster 0 podA).log
        = [.updatePod { podA with labels := some [("app", "web"), ("role", "slave")] }
            (some conflictErr)] ++ .sleep :: .getPod "web-0" (.fail notFoundErr) :: [] ∧
      ∃ e, (SetSlaveLabel lostCluster 0 podA).out = .returned (some e)) := by
  have h := (setLabel_aborts_on_first_failure brokenCluster 0 podA).2.2.1
    { podA with labels := some [("app", "web"), ("role", "master")] }
    (.other "connection refused") [] rfl rfl
  have h2 := (setLabel_aborts_on_first_failure lostCluster 0 podA).2.1
    [.updatePod { podA with labels := some [("app", "web"), ("role", "slave")] }
      (some conflictErr), .sleep]
    (.getPod "web-0" (.fail notFoundErr)) [] rfl rfl
  exact ⟨⟨h.2.2.1, h.2.2.2⟩, rfl, h2.2⟩

/-- Relabelling a mapping gives a relabelled instance. -/
theorem isRelabelOf_mapSet (q : Pod) (m : StrMap) (k v : String) (hq : q.labels = some m) :
    IsRelabelOf { q with labels := some (mapSet m k v) } q k v :=
  ⟨rfl, rfl, m, mapSet m k v, hq, rfl, mapGet_mapSet_same m k v,
    fun j hj => mapGet_mapSet_other m k v j hj⟩

/-- An iteration of the retry loop whose fetch the cluster answers with a labelled instance
`q` and whose write of the relabelled `q` it answers with a version conflict: the loop goes
on from the state the cluster is left in, with the name of `q` and that conflict in hand. -/
theorem retryLoop_step_conflict (c : Cluster σ) (key val msgRetry msgFailed : String)
    (n : Nat) (s t u : σ) (name : String) (err : GoErr) (q : Pod) (m : StrMap) (e : ApiError)
    (hg : c.getPod s name = (t, .ok q)) (hl : q.labels = some m)
    (hu : c.updatePod t { q with labels := some (mapSet m key val) } = (u, some e))
    (hc : IsConflict e = true) :
    retryLoop c key val msgRetry msgFailed (n + 1) s name err =
      ⟨(retryLoop c key val msgRetry msgFailed n u q.name (.api e)).state,
       .sleep :: .getPod name (.ok q) ::
         .updatePod { q with labels := some (mapSet m key val) } (some e) ::
         (retryLoop c key val msgRetry msgFailed n u q.name (.api e)).log,
       (retryLoop c key val msgRetry msgFailed n u q.name (.api e)).out⟩ := by
  simp [retryLoop, GetInstanceInfo, getResult, hg, hl, hu, hc]

/-- An iteration of the retry loop whose fetch the cluster answers with a labelled instance
`q` and whose write of the relabelled `q` it answers with success: the routine returns. -/
theorem retryLoop_step_success (c : Cluster σ) (key val msgRetry msgFailed : String)
    (n : Nat) (s t u : σ) (name : String) (err : GoErr) (q : Pod) (m : StrMap)
    (hg : c.getPod s name = (t, .ok q)) (hl : q.labels = some m)
    (hu : c.updatePod t { q with labels := some (mapSet m key val) } = (u, none)) :
    retryLoop c key val msgRetry msgFailed (n + 1) s name err =
      ⟨u, [.sleep, .getPod name (.ok q),
            .updatePod { q with labels := some (mapSet m key val) } none],
       .returned none⟩ := by
  simp [retryLoop, GetInstanceInfo, getResult, hg, hl, hu]

/-- A label write whose first update the cluster answers with a version conflict enters the
retry loop with five iterations to run. -/
theorem setLabel_first_conflict (c : Cluster σ) (s u : σ) (kv : String × String)
    (msgFirst msgRetry msgFailed : String) (p : Pod) (m : StrMap) (e : ApiError)
    (hp : p.labels = some m)
    (hu : c.updatePod s { p with labels := some (mapSet m kv.1 kv.2) } = (u, some e))
    (hc : IsConflict e = true) :
    setLabel c s kv msgFirst msgRetry msgFailed p =
      ⟨(retryLoop c kv.1 kv.2 msgRetry msgFailed 5 u p.name (.api e)).state,
       .updatePod { p with labels := some (mapSet m kv.1 kv.2) } (some e) ::
         (retryLoop c kv.1 kv.2 msgRetry msgFailed 5 u p.name (.api e)).log,
       (retryLoop c kv.1 kv.2 msgRetry msgFailed 5 u p.name (.api e)).out⟩ := by
  simp [setLabel, hp, hu, hc]

/-- C4 (as stated, refuted): on a cluster that answers the first four updates with a version
conflict and the fifth with success, and whose re-fetch succeeds with an instance that
carries no label mapping, `SetMasterLabel` of a labelled instance panics on the relabelling of
the fetched copy, after one update and one fetch; and on a cluster whose copy of the instance
differs from the given one, the first written object is the given instance relabelled, not a
fetched one. -/
theorem SetMasterLabel_unlabelled_refetch_crashes :
    podA.labels = some [("app", "web")] ∧
    ((bareCluster 4).updatePod 0 podA).2 = some conflictErr ∧
    ((bareCluster 4).updatePod 3 podA).2 = some conflictErr ∧
    ((bareCluster 4).updatePod 4 podA).2 = none ∧
    ((bareCluster 4).getPod 1 "web-0").2 = .ok podBare ∧
    (SetMasterLabel (bareCluster 4) 0 podA).out = .crashed "assignment to entry in nil map" ∧
    (SetMasterLabel (bareCluster 4) 0 podA).log
      = [.updatePod { podA with labels := some [("app", "web"), ("role", "master")] }
           (some conflictErr),
         .sleep, .getPod "web-0" (.ok podBare)] ∧
    (SetMasterLabel (flakyCluster 4) 0 podTier).out = .returned none ∧
    updatesOf (SetMasterLabel (flakyCluster 4) 0 podTier).log
      = [{ podTier with labels := some [("app", "web"), ("tier", "x"), ("role", "master")] },
         { podA with labels := some [("app", "web"), ("role", "master")] },
         { podA with labels := some [("app", "web"), ("role", "master")] },
         { podA with labels := some [("app", "web"), ("role", "master")] },
         { podA with labels := some [("app", "web"), ("role", "master")] }] := by
  decide

/-- C4 (amended): for every instance `p` with a label mapping, when the cluster answers the
first four update attempts with a version conflict and the fifth with success, every re-fetch
succeeding with an instance that carries a label mapping, `SetMasterLabel` returns no error
and leaves the cluster in the state after the fifth update; its calls are exactly five
updates and four fetches, a fetch by the name of the instance in hand before each of the four
retried writes (the name of `p` throughout when the fetched copies bear it); the first
written object is `p` and each retried one, the last included, is the copy just fetched, each
with role set to master and its other labels unchanged. -/
theorem SetMasterLabel_retry_success (c : Cluster σ) (s : σ) (p : Pod) (m0 : StrMap)
    (s1 t1 s2 t2 s3 t3 s4 t4 s5 : σ) (q1 q2 q3 q4 : Pod) (m1 m2 m3 m4 : StrMap)
    (e0 e1 e2 e3 : ApiError)
    (hp : p.labels = some m0)
    (hu0 : c.updatePod s { p with labels := some (mapSet m0 "role" "master") }
      = (s1, some e0)) (hc0 : IsConflict e0 = true)
    (hg1 : c.getPod s1 p.name = (t1, .ok q1)) (hl1 : q1.labels = some m1)
    (hu1 : c.updatePod t1 { q1 with labels := some (mapSet m1 "role" "master") }
      = (s2, some e1)) (hc1 : IsConflict e1 = true)
    (hg2 : c.getPod s2 q1.name = (t2, .ok q2)) (hl2 : q2.labels = some m2)
    (hu2 : c.updatePod t2 { q2 with labels := some (mapSet m2 "role" "master") }
      = (s3, some e2)) (hc2 : IsConflict e2 = true)
    (hg3 : c.getPod s3 q2.name = (t3, .ok q3)) (hl3 : q3.labels = some m3)
    (hu3 : c.updatePod t3 { q3 with labels := some (mapSet m3 "role" "master") }
      = (s4, some e3)) (hc3 : IsConflict e3 = true)
    (hg4 : c.getPod s4 q3.name = (t4, .ok q4)) (hl4 : q4.labels = some m4)
    (hu4 : c.updatePod t4 { q4 with labels := some (mapSet m4 "role" "master") }
      = (s5, none)) :
    (SetMasterLabel c s p).out = .returned none ∧
    (SetMasterLabel c s p).state = s5 ∧
    (SetMasterLabel c s p).log =
      [.updatePod { p with labels := some (mapSet m0 "role" "master") } (some e0),
       .sleep, .getPod p.name (.ok q1),
       .updatePod { q1 with labels := some (mapSet m1 "role" "master") } (some e1),
       .sleep, .getPod q1.name (.ok q2),
       .updatePod { q2 with labels := some (mapSet m2 "role" "master") } (some e2),
       .sleep, .getPod q2.name (.ok q3),
       .updatePod { q3 with labels := some (mapSet m3 "role" "master") } (some e3),
       .sleep, .getPod q3.name (.ok q4),
       .updatePod { q4 with labels := some (mapSet m4 "role" "master") } none] ∧
    (fetchesOf (SetMasterLabel c s p).log).length = 4 ∧
    (updatesOf (SetMasterLabel c s p).log).length = 5 ∧
    (∃ w0 w1 w2 w3 w4, updatesOf (SetMasterLabel c s p).log = [w0, w1, w2, w3, w4] ∧
      IsRelabelOf w0 p "role" "master" ∧ IsRelabelOf w1 q1 "role" "master" ∧
      IsRelabelOf w2 q2 "role" "master" ∧ IsRelabelOf w3 q3 "role" "master" ∧
      IsRelabelOf w4 q4 "role" "master") ∧
    (q1.name = p.name → q2.name = p.name → q3.name = p.name →
      fetchesOf (SetMasterLabel c s p).log = [p.name, p.name, p.name, p.name]) := by
  have hrun : SetMasterLabel c s p =
      ⟨s5,
       [.updatePod { p with labels := some (mapSet m0 "role" "master") } (some e0),
        .sleep, .getPod p.name (.ok q1),
        .updatePod { q1 with labels := some (mapSet m1 "role" "master") } (some e1),
        .sleep, .getPod q1.name (.ok q2),
        .updatePod { q2 with labels := some (mapSet m2 "role" "master") } (some e2),
        .sleep, .getPod q2.name (.ok q3),
        .updatePod { q3 with labels := some (mapSet m3 "role" "master") } (some e3),
        .sleep, .getPod q3.name (.ok q4),
        .updatePod { q4 with labels := some (mapSet m4 "role" "master") } none],
       .returned none⟩ := by
    unfold SetMasterLabel
    rw [setLabel_first_conflict c s s1 GetMasterLabels _ _ _ p m0 e0 hp hu0 hc0]
    simp only [GetMasterLabels]
    rw [retryLoop_step_conflict c _ _ _ _ 4 s1 t1 s2 p.name _ q1 m1 e1 hg1 hl1 hu1 hc1,
      retryLoop_step_conflict c _ _ _ _ 3 s2 t2 s3 q1.name _ q2 m2 e2 hg2 hl2 hu2 hc2,
      retryLoop_step_conflict c _ _ _ _ 2 s3 t3 s4 q2.name _ q3 m3 e3 hg3 hl3 hu3 hc3,
      retryLoop_step_success c _ _ _ _ 1 s4 t4 s5 q3.name _ q4 m4 hg4 hl4 hu4]
  rw [hrun]
  refine ⟨rfl, rfl, rfl, rfl, rfl, ⟨_, _, _, _, _, rfl, isRelabelOf_mapSet p m0 _ _ hp,
    isRelabelOf_mapSet q1 m1 _ _ hl1, isRelabelOf_mapSet q2 m2 _ _ hl2,
    isRelabelOf_mapSet q3 m3 _ _ hl3, isRelabelOf_mapSet q4 m4 _ _ hl4⟩, ?_⟩
  intro n1 n2 n3
  simp [fetchesOf, n1, n2, n3]

/-- C4 (amended) on a double that answers four conflicts, then success, and re-fetches the
labelled `podA`. -/
theorem SetMasterLabel_retry_success_witness :
    (SetMasterLabel (flakyCluster 4) 0 podA).out = .returned none ∧
    (SetMasterLabel (flakyCluster 4) 0 podA).state = 5 ∧
    (fetchesOf (SetMasterLabel (flakyCluster 4) 0 podA).log).length = 4 ∧
    (updatesOf (SetMasterLabel (flakyCluster 4) 0 podA).log).length = 5 ∧
    fetchesOf (SetMasterLabel (flakyCluster 4) 0 podA).log
      = ["web-0", "web-0", "web-0", "web-0"] := by
  have h := SetMasterLabel_retry_success (flakyCluster 4) 0 podA [("app", "web")]
    1 1 2 2 3 3 4 4 5 podA podA podA podA
    [("app", "web")] [("app", "web")] [("app", "web")] [("app", "web")]
    conflictErr conflictErr conflictErr conflictErr
    rfl rfl rfl rfl rfl rfl rfl rfl rfl rfl rfl rfl rfl rfl rfl rfl rfl rfl
  exact ⟨h.1, h.2.1, h.2.2.2.1, h.2.2.2.2.1, h.2.2.2.2.2.2 rfl rfl rfl⟩

/-- C3 (as stated, refuted): on a cluster that answers five consecutive update attempts with
a version conflict, every re-fetch succeeding, `SetMasterLabel` does issue a sixth update
attempt, and when that one succeeds it returns no error instead of the retry-failed error;
and for an instance without a label mapping, or when a re-fetch succeeds with an instance
without one, it panics instead of returning the retry-failed error. -/
theorem SetMasterLabel_sixth_attempt_is_made :
    updateKinds (SetMasterLabel (flakyCluster 5) 0 podA).log
      = [.conflict, .conflict, .conflict, .conflict, .conflict, .success] ∧
    fetchesOf (SetMasterLabel (flakyCluster 5) 0 podA).log
      = ["web-0", "web-0", "web-0", "web-0", "web-0"] ∧
    (updatesOf (SetMasterLabel (flakyCluster 5) 0 podA).log).length = 6 ∧
    (SetMasterLabel (flakyCluster 5) 0 podA).out = .returned none ∧
    (SetMasterLabel (flakyCluster 6) 0 podBare).out
      = .crashed "assignment to entry in nil map" ∧
    (SetMasterLabel (flakyCluster 6) 0 podBare).log = [] ∧
    (SetMasterLabel (bareCluster 6) 0 podA).out = .crashed "assignment to entry in nil map" ∧
    (SetMasterLabel (bareCluster 6) 0 podA).log
      = [.updatePod { podA with labels := some [("app", "web"), ("role", "master")] }
           (some conflictErr),
         .sleep, .getPod "web-0" (.ok podBare)] := by
  decide

/-- C3 (amended): for every instance `p` with a label mapping, when the cluster answers six
consecutive update attempts (the first write and its five retries) with a version conflict,
every re-fetch succeeding with an instance that carries a label mapping, `SetMasterLabel`
returns the error "err set master retry failed" wrapping the last conflict, after exactly six
updates and five fetches, and leaves the cluster in the state after the sixth update: there
is no seventh update attempt, whatever the cluster would have answered to it. -/
theorem SetMasterLabel_retry_exhausted (c : Cluster σ) (s : σ) (p : Pod) (m0 : StrMap)
    (s1 t1 s2 t2 s3 t3 s4 t4 s5 t5 s6 : σ) (q1 q2 q3 q4 q5 : Pod)
    (m1 m2 m3 m4 m5 : StrMap) (e0 e1 e2 e3 e4 e5 : ApiError)
    (hp : p.labels = some m0)
    (hu0 : c.updatePod s { p with labels := some (mapSet m0 "role" "master") }
      = (s1, some e0)) (hc0 : IsConflict e0 = true)
    (hg1 : c.getPod s1 p.name = (t1, .ok q1)) (hl1 : q1.labels = some m1)
    (hu1 : c.updatePod t1 { q1 with labels := some (mapSet m1 "role" "master") }
      = (s2, some e1)) (hc1 : IsConflict e1 = true)
    (hg2 : c.getPod s2 q1.name = (t2, .ok q2)) (hl2 : q2.labels = some m2)
    (hu2 : c.updatePod t2 { q2 with labels := some (mapSet m2 "role" "master") }
      = (s3, some e2)) (hc2 : IsConflict e2 = true)
    (hg3 : c.getPod s3 q2.name = (t3, .ok q3)) (hl3 : q3.labels = some m3)
    (hu3 : c.updatePod t3 { q3 with labels := some (mapSet m3 "role" "master") }
      = (s4, some e3)) (hc3 : IsConflict e3 = true)
    (hg4 : c.getPod s4 q3.name = (t4, .ok q4)) (hl4 : q4.labels = some m4)
    (hu4 : c.updatePod t4 { q4 with labels := some (mapSet m4 "role" "master") }
      = (s5, some e4)) (hc4 : IsConflict e4 = true)
    (hg5 : c.getPod s5 q4.name = (t5, .ok q5)) (hl5 : q5.labels = some m5)
    (hu5 : c.updatePod t5 { q5 with labels := some (mapSet m5 "role" "master") }
      = (s6, some e5)) (hc5 : IsConflict e5 = true) :
    (SetMasterLabel c s p).out
      = .returned (some (.wrap (.api e5) "err set master retry failed")) ∧
    (SetMasterLabel c s p).state = s6 ∧
    (SetMasterLabel c s p).log =
      [.updatePod { p with labels := some (mapSet m0 "role" "master") } (some e0),
       .sleep, .getPod p.name (.ok q1),
       .updatePod { q1 with labels := some (mapSet m1 "role" "master") } (some e1),
       .sleep, .getPod q1.name (.ok q2),
       .updatePod { q2 with labels := some (mapSet m2 "role" "master") } (some e2),
       .sleep, .getPod q2.name (.ok q3),
       .updatePod { q3 with labels := some (mapSet m3 "role" "master") } (some e3),
       .sleep, .getPod q3.name (.ok q4),
       .updatePod { q4 with labels := some (mapSet m4 "role" "master") } (some e4),
       .sleep, .getPod q4.name (.ok q5),
       .updatePod { q5 with labels := some (mapSet m5 "role" "master") } (some e5)] ∧
    (updatesOf (SetMasterLabel c s p).log).length = 6 ∧
    (fetchesOf (SetMasterLabel c s p).log).length = 5 := by
  have hrun : SetMasterLabel c s p =
      ⟨s6,
       [.updatePod { p with labels := some (mapSet m0 "role" "master") } (some e0),
        .sleep, .getPod p.name (.ok q1),
        .updatePod { q1 with labels := some (mapSet m1 "role" "master") } (some e1),
        .sleep, .getPod q1.name (.ok q2),
        .updatePod { q2 with labels := some (mapSet m2 "role" "master") } (some e2),
        .sleep, .getPod q2.name (.ok q3),
        .updatePod { q3 with labels := some (mapSet m3 "role" "master") } (some e3),
        .sleep, .getPod q3.name (.ok q4),
        .updatePod { q4 with labels := some (mapSet m4 "role" "master") } (some e4),
        .sleep, .getPod q4.name (.ok q5),
        .updatePod { q5 with labels := some (mapSet m5 "role" "master") } (some e5)],
       .returned (some (.wrap (.api e5) "err set master retry failed"))⟩ := by
    unfold SetMasterLabel
    rw [setLabel_first_conflict c s s1 GetMasterLabels _ _ _ p m0 e0 hp hu0 hc0]
    simp only [GetMasterLabels]
    rw [retryLoop_step_conflict c _ _ _ _ 4 s1 t1 s2 p.name _ q1 m1 e1 hg1 hl1 hu1 hc1,
      retryLoop_step_conflict c _ _ _ _ 3 s2 t2 s3 q1.name _ q2 m2 e2 hg2 hl2 hu2 hc2,
      retryLoop_step_conflict c _ _ _ _ 2 s3 t3 s4 q2.name _ q3 m3 e3 hg3 hl3 hu3 hc3,
      retryLoop_step_conflict c _ _ _ _ 1 s4 t4 s5 q3.name _ q4 m4 e4 hg4 hl4 hu4 hc4,
      retryLoop_step_conflict c _ _ _ _ 0 s5 t5 s6 q4.name _ q5 m5 e5 hg5 hl5 hu5 hc5,
      retryLoop_zero]
  rw [hrun]
  exact ⟨rfl, rfl, rfl, rfl, rfl⟩

/-- C3 (amended) on a double that answers six conflicts and would answer a seventh update
with success. -/
theorem SetMasterLabel_retry_exhausted_witness :
    ((flakyCluster 6).updatePod 6 podA).2 = none ∧
    (SetMasterLabel (flakyCluster 6) 0 podA).out
        = .returned (some (.wrap (.api conflictErr) "err set master retry failed")) ∧
    (SetMasterLabel (flakyCluster 6) 0 podA).state = 6 ∧
    (updatesOf (SetMasterLabel (flakyCluster 6) 0 podA).log).length = 6 ∧
    (fetchesOf (SetMasterLabel (flakyCluster 6) 0 podA).log).length = 5 := by
  have h := SetMasterLabel_retry_exhausted (flakyCluster 6) 0 podA [("app", "web")]
    1 1 2 2 3 3 4 4 5 5 6 podA podA podA podA podA
    [("app", "web")] [("app", "web")] [("app", "web")] [("app", "web")] [("app", "web")]
    conflictErr conflictErr conflictErr conflictErr conflictErr conflictErr
    rfl rfl rfl rfl rfl rfl rfl rfl rfl rfl rfl rfl rfl rfl rfl rfl rfl rfl rfl rfl rfl rfl rfl
  exact ⟨rfl, h.1, h.2.1, h.2.2.2.1, h.2.2.2.2⟩

/-! ## Job creation -/

/-- C6 (as stated, refuted): with non-empty owner, job name and image and the owner resolved
to the instance of that name, a call of `CreateNewJob` whose label mapping is the nil map
panics on the write of the parent label, after the fetch of the owner, and submits no job. -/
theorem CreateNewJob_nil_labels_crashes :
    (quietCluster.getPod 0 "web-0").2 = .ok podA ∧ podA.name = "web-0" ∧
    (CreateNewJob ⟨"default", "web-0"⟩ quietCluster 0 "web-0" "backup" "busybox"
        [("depth", "3")] none).out.out = .crashed "assignment to entry in nil map" ∧
    (CreateNewJob ⟨"default", "web-0"⟩ quietCluster 0 "web-0" "backup" "busybox"
        [("depth", "3")] none).log = [.getPod "web-0" (.ok podA)] ∧
    createsOf (CreateNewJob ⟨"default", "web-0"⟩ quietCluster 0 "web-0" "backup" "busybox"
        [("depth", "3")] none).log = [] := by
  decide

/-- C6 (amended): for non-empty owner, job name and image, any argument mapping and any
caller-supplied label mapping that is not the nil map (`labels = some m`), when the
directory resolves the owner to an instance named `owner`, `CreateNewJob` submits exactly
one job; its labels bind parent to the owner and app to the job name and agree with `m` on
every other key (the caller's mapping is left holding these labels), its generated name is owner-jobName, it has
exactly one container, with the given image, pod restart policy Never and backoff limit 0. -/
theorem CreateNewJob_postcondition (svc : Service) (c : Cluster σ) (s : σ)
    (owner jobName image : String) (args : StrMap) (labels : Option StrMap) (m : StrMap)
    (pod : Pod) (ho : owner ≠ "") (hj : jobName ≠ "") (hi : image ≠ "")
    (hlab : labels = some m)
    (hget : (c.getPod s owner).2 = .ok pod) (hname : pod.name = owner) :
    ∃ jb L,
      createsOf (CreateNewJob svc c s owner jobName image args labels).log = [jb] ∧
      jb.labels = some L ∧
      mapGet L "parent" = some owner ∧ mapGet L "app" = some jobName ∧
      (∀ k, k ≠ "parent" → k ≠ "app" → mapGet L k = mapGet m k) ∧
      jb.generateName = owner ++ "-" ++ jobName ∧
      (∃ ctr, jb.spec.template.containers = [ctr] ∧ ctr.image = image) ∧
      jb.spec.template.restartPolicy = "Never" ∧
      jb.spec.backoffLimit = some 0 ∧
      (CreateNewJob svc c s owner jobName image args labels).out.labels = some L ∧
      ∃ resp, (CreateNewJob svc c s owner jobName image args labels).log
        = [.getPod owner (.ok pod), .createJob jb resp] := by
  subst hlab
  refine ⟨buildJob svc pod jobName image args
      (mapSet (mapSet m "parent" pod.name) GetAppLabel jobName),
    mapSet (mapSet m "parent" pod.name) GetAppLabel jobName, ?_, rfl, ?_, ?_, ?_, ?_,
    ⟨_, rfl, rfl⟩, rfl, rfl, ?_, ?_⟩
  · cases hr : (c.createJob (c.getPod s owner).1 (buildJob svc pod jobName image args
        (mapSet (mapSet m "parent" pod.name) GetAppLabel jobName))).2 <;>
      simp [CreateNewJob, ho, hj, hi, GetInstanceInfo, getResult, hget, hr, createsOf]
  · rw [mapGet_mapSet_other _ _ _ _ (by decide), mapGet_mapSet_same, hname]
  · exact mapGet_mapSet_same _ _ _
  · intro k hk1 hk2
    rw [mapGet_mapSet_other _ GetAppLabel _ _ hk2, mapGet_mapSet_other _ _ _ _ hk1]
  · simp [buildJob, hname]
  · cases hr : (c.createJob (c.getPod s owner).1 (buildJob svc pod jobName image args
        (mapSet (mapSet m "parent" pod.name) GetAppLabel jobName))).2 <;>
      simp [CreateNewJob, ho, hj, hi, GetInstanceInfo, getResult, hget, hr]
  · cases hr : (c.createJob (c.getPod s owner).1 (buildJob svc pod jobName image args
        (mapSet (mapSet m "parent" pod.name) GetAppLabel jobName))).2 <;>
      simp [CreateNewJob, ho, hj, hi, GetInstanceInfo, getResult, hget, hr]

/-- C6 (amended) on a call whose label mapping already binds parent and app. -/
theorem CreateNewJob_postcondition_witness :
    ∃ jb L,
      createsOf (CreateNewJob ⟨"default", "web-0"⟩ quietCluster 0 "web-0" "backup" "busybox"
        [("depth", "3")] (some [("parent", "x"), ("team", "a"), ("app", "y")])).log = [jb] ∧
      jb.labels = some L ∧
      mapGet L "parent" = some "web-0" ∧ mapGet L "app" = some "backup" ∧
      mapGet L "team" = some "a" ∧ jb.spec.backoffLimit = some 0 := by
  obtain ⟨jb, L, h1, h2, h3, h4, h5, _, _, _, h9, _, _⟩ :=
    CreateNewJob_postcondition ⟨"default", "web-0"⟩ quietCluster 0 "web-0" "backup" "busybox"
      [("depth", "3")] (some [("parent", "x"), ("team", "a"), ("app", "y")])
      [("parent", "x"), ("team", "a"), ("app", "y")] podA
      (by decide) (by decide) (by decide) rfl rfl rfl
  exact ⟨jb, L, h1, h2, h3, h4, (h5 "team" (by decide) (by decide)).trans rfl, h9⟩

/-! ## History sweep -/

/-- The delete calls of a concatenated log. -/
theorem deletesOf_append (a b : List Event) : deletesOf (a ++ b) = deletesOf a ++ deletesOf b := by
  induction a with
  | nil => rfl
  | cons x a ih => cases x <;> simp [deletesOf, ih]

/-- A successful delete through `SuspendJob`. -/
theorem SuspendJob_ok (c : Cluster σ) (s : σ) (name : String)
    (hdel : (c.deleteJob s name).2 = none) :
    (SuspendJob c s name).out = none ∧ (SuspendJob c s name).log = [.deleteJob name none] := by
  simp [SuspendJob, hdel]

/-- With every deletion succeeding and every job carrying a completion time, the loop over
the finished jobs runs to its end and deletes exactly the jobs past retention, in order. -/
theorem sweepFinished_deletes (c : Cluster σ) (now after : Time)
    (hdel : ∀ t n, (c.deleteJob t n).2 = none) (fin : List Job) :
    ∀ s, (∀ j ∈ fin, j.status.completionTime ≠ none) →
      (sweepFinished c now after fin s).out = none ∧
      deletesOf (sweepFinished c now after fin s).log
        = (fin.filter (fun j => match j.status.completionTime with
            | some ct => decide (now > ct + after)
            | none => false)).map (fun j => j.name) := by
  induction fin with
  | nil =>
    intro s _
    simp [sweepFinished, deletesOf]
  | cons j fin ih =>
    intro s hct
    have hj := hct j (List.mem_cons_self _ _)
    have hrest : ∀ j' ∈ fin, j'.status.completionTime ≠ none :=
      fun j' h => hct j' (List.mem_cons_of_mem _ h)
    cases hc : j.status.completionTime with
    | none => exact absurd hc hj
    | some ct =>
      by_cases hexp : now > ct + after
      · obtain ⟨ho, hl⟩ := SuspendJob_ok c s j.name (hdel s j.name)
        obtain ⟨h1, h2⟩ := ih (SuspendJob c s j.name).state hrest
        simp [sweepFinished, hc, hexp, ho, hl, h1, h2, deletesOf, List.filter_cons]
      · obtain ⟨h1, h2⟩ := ih s hrest
        simp [sweepFinished, hc, hexp, h1, h2, List.filter_cons]

/-- With every deletion succeeding, the scan of one failed job ends without leaving the
routine and deletes the job once when some condition is past retention, not at all
otherwise. -/
theorem scanConditions_deletes (c : Cluster σ) (now after : Time) (jobName : String)
    (hdel : ∀ t n, (c.deleteJob t n).2 = none) (conds : List JobCondition) :
    ∀ s, (scanConditions c now after jobName conds s).out = none ∧
      deletesOf (scanConditions c now after jobName conds s).log
        = if conds.any (fun cd => decide (now > cd.lastTransitionTime + after))
          then [jobName] else [] := by
  induction conds with
  | nil =>
    intro s
    simp [scanConditions, deletesOf]
  | cons cd conds ih =>
    intro s
    by_cases hexp : now > cd.lastTransitionTime + after
    · obtain ⟨ho, hl⟩ := SuspendJob_ok c s jobName (hdel s jobName)
      simp [scanConditions, hexp, ho, hl, deletesOf]
    · obtain ⟨h1, h2⟩ := ih s
      simp [scanConditions, hexp, h1, h2]

/-- With every deletion succeeding, the loop over the failed jobs runs to its end and deletes
exactly the jobs with a condition past retention, in order. -/
theorem sweepFailed_deletes (c : Cluster σ) (now after : Time)
    (hdel : ∀ t n, (c.deleteJob t n).2 = none) (failed : List Job) :
    ∀ s, (sweepFailed c now after failed s).out = none ∧
      deletesOf (sweepFailed c now after failed s).log
        = (failed.filter (fun j => j.status.conditions.any
            (fun cd => decide (now > cd.lastTransitionTime + after)))).map (fun j => j.name) := by
  induction failed with
  | nil =>
    intro s
    simp [sweepFailed, deletesOf]
  | cons j failed ih =>
    intro s
    obtain ⟨h1, h2⟩ := scanConditions_deletes c now after j.name hdel j.status.conditions s
    obtain ⟨h3, h4⟩ := ih (scanConditions c now after j.name j.status.conditions s).state
    by_cases hany : j.status.conditions.any
        (fun cd => decide (now > cd.lastTransitionTime + after)) = true
    · simp only [sweepFailed, h1, h3, deletesOf_append, h2, h4, hany, if_true,
        List.filter_cons, List.map_cons, List.singleton_append, and_self]
    · simp only [sweepFailed, h1, h3, deletesOf_append, h2, h4, hany, if_false,
        List.filter_cons, List.nil_append, and_self, Bool.false_eq_true]

/-- In a list of jobs with pairwise distinct names, a job's name occurs among the names of
the jobs selected by `P` once when `P` selects the job and not at all otherwise. -/
theorem count_name_filter (P : Job → Bool) (jobs : List Job)
    (hnd : (jobs.map (fun j => j.name)).Nodup) (j : Job) (hj : j ∈ jobs) :
    ((jobs.filter P).map (fun j => j.name)).count j.name = if P j then 1 else 0 := by
  induction jobs with
  | nil => simp at hj
  | cons a jobs ih =>
    rw [List.map_cons, List.nodup_cons] at hnd
    obtain ⟨hna, hnd⟩ := hnd
    have hnot : ∀ x ∈ jobs, x.name ≠ a.name := by
      intro x hx heq
      exact hna (List.mem_map.mpr ⟨x, hx, heq⟩)
    rcases List.mem_cons.mp hj with h | h
    · subst h
      have hzero : ((jobs.filter P).map (fun j => j.name)).count j.name = 0 := by
        rw [List.count_eq_zero]
        intro hmem
        obtain ⟨x, hx, heq⟩ := List.mem_map.mp hmem
        exact hnot x (List.mem_filter.mp hx).1 heq
      by_cases hp : P j = true
      · simp [List.filter_cons, hp, hzero]
      · simp [List.filter_cons, hp, hzero]
    · have hne : a.name ≠ j.name := fun heq => hnot j h heq.symm
      by_cases hp : P a = true
      · simp [List.filter_cons, hp, List.count_cons, hne, ih hnd h]
      · simp [List.filter_cons, hp, ih hnd h]

/-- The run of `GetJobs` when the list call succeeds. -/
theorem GetJobs_ok (c : Cluster σ) (s : σ) (name : String) (jobs : List Job)
    (hlist : (c.listJobs s [("app", name)]).2 = .ok jobs) :
    GetJobs c s name =
      ⟨(c.listJobs s [("app", name)]).1, [.listJobs [("app", name)] (.ok jobs)],
        ⟨some (jobs.filter (fun j => decide (j.status.succeeded > 0))),
         some (jobs.filter
           (fun j => !decide (j.status.succeeded > 0) && decide (j.status.failed > 0))),
         some (jobs.filter
           (fun j => !decide (j.status.succeeded > 0) && !decide (j.status.failed > 0))),
         none⟩⟩ := by
  have hsel : mapSet [] GetAppLabel name = [("app", name)] := by simp [mapSet, GetAppLabel]
  simp only [GetJobs, hsel, hlist, foldl_classify, List.nil_append]

/-- The run of `ClearJobHistory` when the list call succeeds, in terms of its two loops. -/
theorem ClearJobHistory_ok (c : Cluster σ) (s : σ) (now : Time) (name : String) (after : Time)
    (jobs : List Job) (hlist : (c.listJobs s [("app", name)]).2 = .ok jobs)
    (r1 : Run σ (Option Status))
    (hr1 : r1 = sweepFinished c now after
      (jobs.filter (fun j => decide (j.status.succeeded > 0))) (c.listJobs s [("app", name)]).1)
    (r2 : Run σ (Option Status))
    (hr2 : r2 = sweepFailed c now after
      (jobs.filter (fun j => !decide (j.status.succeeded > 0) && decide (j.status.failed > 0)))
      r1.state) :
    (∀ st, r1.out = some st → (ClearJobHistory c s now name after).out = st) ∧
    (r1.out = none → ∀ st, r2.out = some st →
      (ClearJobHistory c s now name after).out = st) ∧
    (r1.out = none → r2.out = none →
      (ClearJobHistory c s now name after).out = .returned none ∧
      (ClearJobHistory c s now name after).log
        = [.listJobs [("app", name)] (.ok jobs)] ++ r1.log ++ r2.log) := by
  subst hr1
  subst hr2
  refine ⟨?_, ?_, ?_⟩
  · intro st h
    simp [ClearJobHistory, GetJobs_ok c s name jobs hlist, h]
  · intro h1 st h2
    simp [ClearJobHistory, GetJobs_ok c s name jobs hlist, h1, h2]
  · intro h1 h2
    simp [ClearJobHistory, GetJobs_ok c s name jobs hlist, h1, h2]

/-- C8 (as stated, refuted): on the job list holding a job with succeeded > 0 and no completion
time, followed by a failed job with a condition past retention, with every deletion
succeeding, `ClearJobHistory` panics on the read of the absent completion time and issues no
delete at all, so the expired failed job is not deleted. -/
theorem ClearJobHistory_crashes_before_failed_sweep :
    ((jobsCluster [jobHalf, jobBad]).listJobs 0 [("app", "web")]).2 = .ok [jobHalf, jobBad] ∧
    ((jobsCluster [jobHalf, jobBad]).deleteJob 0 "j-bad").2 = none ∧
    expiredFailed 161 60 jobBad = true ∧
    (ClearJobHistory (jobsCluster [jobHalf, jobBad]) 0 161 "web" 60).out
      = .crashed "nil pointer dereference" ∧
    deletesOf (ClearJobHistory (jobsCluster [jobHalf, jobBad]) 0 161 "web" 60).log = [] := by
  decide

/-- C8 (amended): when the job list call succeeds with `jobs`, every job with succeeded > 0 carries a
completion time and every deletion succeeds, `ClearJobHistory` returns no error and its
delete calls are, in order, the finished jobs with `now` strictly after completion time plus
retention, then the failed jobs with a condition whose last transition plus retention `now`
is strictly after; with pairwise distinct job names, each listed job is deleted exactly once
when it is such a job and not at all otherwise, so a job exactly at its retention instant
and a pending job are never deleted. -/
theorem ClearJobHistory_deletes_expired (c : Cluster σ) (s : σ) (now : Time) (name : String)
    (after : Time) (jobs : List Job)
    (hlist : (c.listJobs s [("app", name)]).2 = .ok jobs)
    (hct : ∀ j ∈ jobs, j.status.succeeded > 0 → j.status.completionTime ≠ none)
    (hdel : ∀ t n, (c.deleteJob t n).2 = none) :
    (ClearJobHistory c s now name after).out = .returned none ∧
    deletesOf (ClearJobHistory c s now name after).log
      = (jobs.filter (expiredFinished now after)).map (fun j => j.name) ++
        (jobs.filter (expiredFailed now after)).map (fun j => j.name) ∧
    ((jobs.map (fun j => j.name)).Nodup → ∀ j ∈ jobs,
      (deletesOf (ClearJobHistory c s now name after).log).count j.name
        = if expiredFinished now after j || expiredFailed now after j then 1 else 0) ∧
    (∀ j : Job, j.status.completionTime = some (now - after) →
      expiredFinished now after j = false) ∧
    (∀ j : Job, j.status.succeeded ≤ 0 → j.status.failed ≤ 0 →
      expiredFinished now after j = false ∧ expiredFailed now after j = false) := by
  have hfin : ∀ j ∈ jobs.filter (fun j => decide (j.status.succeeded > 0)),
      j.status.completionTime ≠ none := by
    intro j hj
    obtain ⟨hmem, hs⟩ := List.mem_filter.mp hj
    exact hct j hmem (by simpa using hs)
  obtain ⟨h1, h2⟩ := sweepFinished_deletes c now after hdel _
    (c.listJobs s [("app", name)]).1 hfin
  obtain ⟨h3, h4⟩ := sweepFailed_deletes c now after hdel
    (jobs.filter (fun j => !decide (j.status.succeeded > 0) && decide (j.status.failed > 0)))
    (sweepFinished c now after (jobs.filter (fun j => decide (j.status.succeeded > 0)))
      (c.listJobs s [("app", name)]).1).state
  obtain ⟨hout, hlog⟩ :=
    (ClearJobHistory_ok c s now name after jobs hlist _ rfl _ rfl).2.2 h1 h3
  have hdeletes : deletesOf (ClearJobHistory c s now name after).log
      = (jobs.filter (expiredFinished now after)).map (fun j => j.name) ++
        (jobs.filter (expiredFailed now after)).map (fun j => j.name) := by
    rw [hlog, deletesOf_append, deletesOf_append, h2, h4, List.filter_filter,
      List.filter_filter]
    simp only [deletesOf, List.nil_append]
    congr 2
    · apply List.filter_congr
      intro j _
      simp only [expiredFinished]
      cases j.status.completionTime <;> simp [Bool.and_comm]
    · apply List.filter_congr
      intro j _
      simp only [expiredFailed]
      exact Bool.and_comm _ _
  refine ⟨hout, hdeletes, ?_, ?_, ?_⟩
  · intro hnd j hj
    rw [hdeletes, List.count_append, count_name_filter _ jobs hnd j hj,
      count_name_filter _ jobs hnd j hj]
    by_cases hs : j.status.succeeded > 0
    · have : expiredFailed now after j = false := by simp [expiredFailed, hs]
      rw [this]
      cases expiredFinished now after j <;> simp
    · have : expiredFinished now after j = false := by simp [expiredFinished, hs]
      rw [this]
      cases expiredFailed now after j <;> simp
  · intro j hj
    simp [expiredFinished, hj]
  · intro j hs hf
    simp [expiredFinished, expiredFailed, not_lt.mpr hs, not_lt.mpr hf]

/-- C8 (amended) on a double listing a pending, a finished and a failed job, at the retention instant of the finished job and one instant later. -/
theorem ClearJobHistory_deletes_expired_witness :
    (ClearJobHistory (jobsCluster [jobWait, jobDone, jobBad]) 0 160 "web" 60).out
        = .returned none ∧
    deletesOf (ClearJobHistory (jobsCluster [jobWait, jobDone, jobBad]) 0 160 "web" 60).log
        = ["j-bad"] ∧
    deletesOf (ClearJobHistory (jobsCluster [jobWait, jobDone, jobBad]) 0 161 "web" 60).log
        = ["j-done", "j-bad"] := by
  have h := ClearJobHistory_deletes_expired (jobsCluster [jobWait, jobDone, jobBad]) 0 160
    "web" 60 [jobWait, jobDone, jobBad] rfl (by decide) (fun _ _ => rfl)
  have h2 := ClearJobHistory_deletes_expired (jobsCluster [jobWait, jobDone, jobBad]) 0 161
    "web" 60 [jobWait, jobDone, jobBad] rfl (by decide) (fun _ _ => rfl)
  exact ⟨h.1, h.2.1.trans (by decide), h2.2.1.trans (by decide)⟩

/-- The loop over finished jobs that all carry a completion time never crashes: it runs to
its end or leaves the routine with a returned error. -/
theorem sweepFinished_returns (c : Cluster σ) (now after : Time) (fin : List Job) :
    ∀ s, (∀ j ∈ fin, j.status.completionTime ≠ none) →
      (sweepFinished c now after fin s).out = none ∨
      ∃ e, (sweepFinished c now after fin s).out = some (.returned e) := by
  induction fin with
  | nil =>
    intro s _
    exact Or.inl rfl
  | cons j fin ih =>
    intro s hct
    have hj := hct j (List.mem_cons_self _ _)
    have hrest : ∀ j' ∈ fin, j'.status.completionTime ≠ none :=
      fun j' h => hct j' (List.mem_cons_of_mem _ h)
    cases hc : j.status.completionTime with
    | none => exact absurd hc hj
    | some ct =>
      by_cases hexp : now > ct + after
      · cases hd : (SuspendJob c s j.name).out with
        | some e =>
          right
          exact ⟨some (e.wrap ("err clearHistory delete job " ++ j.name)),
            by simp [sweepFinished, hc, hexp, hd]⟩
        | none =>
          have := ih (SuspendJob c s j.name).state hrest
          simpa [sweepFinished, hc, hexp, hd] using this
      · have := ih s hrest
        simpa [sweepFinished, hc, hexp] using this

/-- The scan of the conditions of a failed job never crashes. -/
theorem scanConditions_returns (c : Cluster σ) (now after : Time) (jobName : String)
    (conds : List JobCondition) :
    ∀ s, (scanConditions c now after jobName conds s).out = none ∨
      ∃ e, (scanConditions c now after jobName conds s).out = some (.returned e) := by
  induction conds with
  | nil =>
    intro s
    exact Or.inl rfl
  | cons cd conds ih =>
    intro s
    by_cases hexp : now > cd.lastTransitionTime + after
    · cases hd : (SuspendJob c s jobName).out with
      | some e =>
        right
        exact ⟨some (e.wrap ("err clearHistory delete job " ++ jobName)),
          by simp [scanConditions, hexp, hd]⟩
      | none =>
        left
        simp [scanConditions, hexp, hd]
    · have := ih s
      simpa [scanConditions, hexp] using this

/-- The loop over the failed jobs never crashes. -/
theorem sweepFailed_returns (c : Cluster σ) (now after : Time) (failed : List Job) :
    ∀ s, (sweepFailed c now after failed s).out = none ∨
      ∃ e, (sweepFailed c now after failed s).out = some (.returned e) := by
  induction failed with
  | nil =>
    intro s
    exact Or.inl rfl
  | cons j failed ih =>
    intro s
    rcases scanConditions_returns c now after j.name j.status.conditions s with h | ⟨e, h⟩
    · have := ih (scanConditions c now after j.name j.status.conditions s).state
      simpa [sweepFailed, h] using this
    · right
      exact ⟨e, by simp [sweepFailed, h]⟩

/-- C10: if every listed job with succeeded > 0 carries a completion time, `ClearJobHistory`
never reads an absent completion time and returns (an error or none), whatever the cluster
answers to the list and delete calls; and the precondition is needed: on the one-job list
holding a job with succeeded > 0 and no completion time, which `GetJobs` puts in the finished
bucket, the read of the completion time fails and the routine does not return. -/
theorem ClearJobHistory_needs_completion_time (c : Cluster σ) (s : σ) (now : Time)
    (name : String) (after : Time) :
    ((∀ jobs, (c.listJobs s [("app", name)]).2 = .ok jobs →
        ∀ j ∈ jobs, j.status.succeeded > 0 → j.status.completionTime ≠ none) →
      ∃ err, (ClearJobHistory c s now name after).out = .returned err) ∧
    (jobHalf.status.succeeded > 0 ∧ jobHalf.status.completionTime = none ∧
      (GetJobs (jobsCluster [jobHalf]) 0 name).out.finished = some [jobHalf] ∧
      (ClearJobHistory (jobsCluster [jobHalf]) 0 now name after).out
        = .crashed "nil pointer dereference") := by
  constructor
  · intro hpre
    cases hl : (c.listJobs s [("app", name)]).2 with
    | fail e =>
      have hsel : mapSet [] GetAppLabel name = [("app", name)] := by
        simp [mapSet, GetAppLabel]
      exact ⟨some (((GoErr.api e).wrap "err get jobs").wrap
        "err clearHistory get completed jobs"), by simp [ClearJobHistory, GetJobs, hsel, hl]⟩
    | ok jobs =>
      have hfin : ∀ j ∈ jobs.filter (fun j => decide (j.status.succeeded > 0)),
          j.status.completionTime ≠ none := by
        intro j hj
        obtain ⟨hmem, hs⟩ := List.mem_filter.mp hj
        exact hpre jobs hl j hmem (by simpa using hs)
      have hok := ClearJobHistory_ok c s now name after jobs hl _ rfl _ rfl
      rcases sweepFinished_returns c now after _ (c.listJobs s [("app", name)]).1 hfin with
        h1 | ⟨e, h1⟩
      · rcases sweepFailed_returns c now after
          (jobs.filter
            (fun j => !decide (j.status.succeeded > 0) && decide (j.status.failed > 0)))
          (sweepFinished c now after (jobs.filter (fun j => decide (j.status.succeeded > 0)))
            (c.listJobs s [("app", name)]).1).state with h2 | ⟨e, h2⟩
        · exact ⟨none, (hok.2.2 h1 h2).1⟩
        · exact ⟨e, hok.2.1 h1 _ h2⟩
      · exact ⟨e, hok.1 _ h1⟩
  · have hg := GetJobs_ok (jobsCluster [jobHalf]) 0 name [jobHalf] rfl
    refine ⟨by decide, rfl, ?_, ?_⟩
    · rw [hg]
      rfl
    · have hok := ClearJobHistory_ok (jobsCluster [jobHalf]) 0 now name after [jobHalf] rfl
        _ rfl _ rfl
      exact hok.1 _ rfl

/-- C10 on a double whose finished job carries a completion time, and on one whose does not. -/
theorem ClearJobHistory_needs_completion_time_witness :
    (∃ err, (ClearJobHistory (jobsCluster [jobWait, jobDone, jobBad]) 0 161 "web" 60).out
        = .returned err) ∧
    (ClearJobHistory (jobsCluster [jobHalf]) 0 161 "web" 60).out
        = .crashed "nil pointer dereference" := by
  have h := ClearJobHistory_needs_completion_time
    (jobsCluster [jobWait, jobDone, jobBad]) 0 161 "web" 60
  refine ⟨h.1 ?_, h.2.2.2.2⟩
  intro jobs hl
  have : jobs = [jobWait, jobDone, jobBad] := by
    have h2 : (Resp.ok [jobWait, jobDone, jobBad] : Resp (List Job)) = Resp.ok jobs := hl
    exact (Resp.ok.inj h2).symm
  subst this
  decide

end Lector
